import Mathlib

/-!
# Verification of the community-dashboard analytics aggregation pipeline

Shallow embedding of `src/scripts/generateAnalytics.ts`.

Modelling conventions:
* ISO-8601 timestamp strings are embedded as `Int` milliseconds since the
  epoch (the script only ever compares them or subtracts them after
  `new Date(...).getTime()`).
* JavaScript floating-point hour values are embedded as `ℚ` (the script only
  adds, divides and compares them on small inputs).
* A UTC calendar date `YYYY-MM-DD` (the result of
  `date.toISOString().split('T')[0]`) is embedded as the day index
  `Int.fdiv t 86400000`: two timestamps format to the same date string iff
  they have the same day index.
* `daysAgo n` (`d.setDate(d.getDate() - n)`) is embedded as
  `now - n * 86400000` (the CI runner is UTC; a day is 86400000 ms).
* A JavaScript object used as a string-keyed map (`repoMap`, `allReviews`,
  `reviewerStats`, `dailyReviews`) is embedded as an insertion-ordered
  association list, matching the enumeration order of `Object.keys` /
  `Object.entries` for non-index string keys.
* The wall-clock `new Date()` read at aggregation time is passed explicitly
  as a `now : Int` parameter.
* Fallible fetches are embedded as `Except String` values.
-/

/-! ## Data model (the TypeScript interfaces) -/

/-- `interface GitHubUser`. -/
structure GitHubUser where
  login : String
  avatar_url : String
  type : Option String
deriving DecidableEq

/-- `interface GitHubPullRequest`; timestamps as epoch milliseconds. -/
structure GitHubPullRequest where
  number : Int
  title : String
  user : GitHubUser
  created_at : Int
  updated_at : Int
  merged_at : Option Int
  state : String
  html_url : String
  draft : Bool
deriving DecidableEq

/-- The label objects carried by `interface GitHubIssue`. -/
structure IssueLabel where
  name : String
  color : String
deriving DecidableEq

/-- The optional `pull_request` marker on `interface GitHubIssue`. -/
structure IssuePullRequestRef where
  merged_at : Option Int
deriving DecidableEq

/-- `interface GitHubIssue`; timestamps as epoch milliseconds. -/
structure GitHubIssue where
  number : Int
  title : String
  user : GitHubUser
  created_at : Int
  updated_at : Int
  closed_at : Option Int
  state : String
  html_url : String
  labels : List IssueLabel
  pull_request : Option IssuePullRequestRef
deriving DecidableEq

/-- The review-state string union of `interface GitHubReview`. -/
inductive ReviewState where
  | APPROVED
  | CHANGES_REQUESTED
  | COMMENTED
  | DISMISSED
deriving DecidableEq

/-- `interface GitHubReview`; timestamps as epoch milliseconds. -/
structure GitHubReview where
  id : Int
  user : GitHubUser
  state : ReviewState
  submitted_at : Int
deriving DecidableEq

/-! ## Shared utilities

String manipulation is implemented character-wise over `String.data` (all
the involved code points are ASCII), so that every definition evaluates by
kernel reduction. -/

/-- Decimal digit test (`0`-`9`). -/
def isDigitChar (c : Char) : Bool := decide (48 ≤ c.toNat) && decide (c.toNat ≤ 57)

/-- Accumulate a digit string's value. -/
def digitsToNat : List Char → Nat → Nat
  | [], acc => acc
  | c :: cs, acc => digitsToNat cs (acc * 10 + (c.toNat - 48))

/-- JavaScript `parseInt(s, 10)`: an optional sign followed by a longest
digit prefix; `none` models the `NaN` result when no digits are present. -/
def parseIntJS (s : String) : Option Int :=
  let core : List Char → Option Int := fun t =>
    let digits := t.takeWhile isDigitChar
    if digits.isEmpty then none else some (digitsToNat digits 0 : Nat)
  match s.data with
  | '-' :: rest => (core rest).map (fun n => -n)
  | '+' :: rest => core rest
  | l => core l

/-- `s.split(sep)` for a one-character separator (the script only splits on
`'#'` and `'/'`). -/
def splitOnCharAux (sep : Char) : List Char → List Char → List (List Char)
  | [], acc => [acc.reverse]
  | c :: cs, acc =>
      if c = sep then acc.reverse :: splitOnCharAux sep cs []
      else splitOnCharAux sep cs (c :: acc)

/-- `s.split(sep)` on a `String`. -/
def splitOnChar (sep : Char) (s : String) : List String :=
  (splitOnCharAux sep s.data []).map String.mk

/-- `s.endsWith(pat)`. -/
def strEndsWith (s pat : String) : Bool := pat.data.isSuffixOf s.data

/-- `String.prototype.toLowerCase` on ASCII code points. -/
def charToLowerJS (c : Char) : Char :=
  if 65 ≤ c.toNat && c.toNat ≤ 90 then Char.ofNat (c.toNat + 32) else c

/-- `s.toLowerCase()` on ASCII strings. -/
def strToLower (s : String) : String := String.mk (s.data.map charToLowerJS)

/-- JavaScript `Math.round`: round half toward positive infinity. -/
def jsRound (q : ℚ) : Int := ⌊q + 1/2⌋

/-- `Math.round(q * 10) / 10` (one decimal place, used for ages). -/
def round1 (q : ℚ) : ℚ := (jsRound (q * 10) : ℚ) / 10

/-- `Math.round(q * 100) / 100` (two decimal places, used for the global
average review time). -/
def round2 (q : ℚ) : ℚ := (jsRound (q * 100) : ℚ) / 100

/-- The UTC day index of a timestamp: two timestamps have equal `dayOf` iff
`formatDate` yields the same `YYYY-MM-DD` string for both. -/
def dayOf (t : Int) : Int := Int.fdiv t 86400000

/-- `daysAgo n` relative to an explicit `now` (in milliseconds). -/
def daysAgoMs (now : Int) (n : Int) : Int := now - n * 86400000

/-- `isBotUser` (`generateAnalytics.ts` lines 187-191): login falsy, or a
present account `type` that is truthy and not `"User"`, or a login ending
in `[bot]`. -/
def isBotUser (user : GitHubUser) : Bool :=
  if user.login = "" then true
  else if (match user.type with
           | some t => t ≠ "" && t ≠ "User"
           | none => false) then true
  else strEndsWith user.login "[bot]"

/-! ## Association-list embedding of JavaScript string-keyed objects -/

/-- Lookup in an insertion-ordered association list (`m[key]`). -/
def lookupRecord {κ β : Type} [DecidableEq κ] (m : List (κ × β)) (key : κ) : Option β :=
  (m.find? (fun kv => kv.1 = key)).map Prod.snd

/-- Assignment `m[key] = v`: overwrite in place when the key exists
(keeping its enumeration position), otherwise append. -/
def recordSet {κ β : Type} [DecidableEq κ] (m : List (κ × β)) (key : κ) (v : β) :
    List (κ × β) :=
  match m with
  | [] => [(key, v)]
  | kv :: rest =>
      if kv.1 = key then (key, v) :: rest else kv :: recordSet rest key v

/-- Truthiness of `repoMap[key]` for a string-valued record: the key is
present and its value is a non-empty string. -/
def recordTruthy (m : List (String × String)) (key : String) : Bool :=
  match lookupRecord m key with
  | some v => v ≠ ""
  | none => false

/-! ## Paginated pull-request fetcher (`getPullRequests`, lines 248-277)

The page stream delivered by the API is embedded as a `List` of pages; the
`while` loop walks it from the front.  An exhausted stream returns the empty
page, which the loop treats like a fetched empty page. -/

/-- The per-item filter applied to each fetched page (line 262-264):
non-bot author and `updated_at` on or after the lookback cutoff. -/
def keepPR (since : Int) (pr : GitHubPullRequest) : Bool :=
  !isBotUser pr.user && decide (since ≤ pr.updated_at)

/-- `getPullRequests` page-walking loop: break on an empty page; otherwise
accumulate the filtered page and break when the page is short or contains
an item updated before the cutoff. -/
def getPullRequests (since : Int) : List (List GitHubPullRequest) → List GitHubPullRequest
  | [] => []
  | prs :: rest =>
      if prs.isEmpty then []
      else
        let filteredPrs := prs.filter (keepPR since)
        if prs.length < 100 || prs.any (fun pr => decide (pr.updated_at < since)) then
          filteredPrs
        else
          filteredPrs ++ getPullRequests since rest

/-- Spec-side definition (from the specification's words, for the C2
refinement): the consumed pages are every page up to and including the
first page that either contains fewer than 100 items or contains at least
one pull request updated before the cutoff — even if that page is full. -/
def consumedPages (since : Int) : List (List GitHubPullRequest) → List (List GitHubPullRequest)
  | [] => []
  | page :: rest =>
      if page.length < 100 || page.any (fun pr => decide (pr.updated_at < since)) then
        [page]
      else
        page :: consumedPages since rest

/-! ## Per-PR review fetcher (`getReviews`, lines 310-318)

The underlying HTTP fetch outcome is embedded as an `Except`: the
`try`/`catch` turns any failure into the empty review list, so the function
itself is total and never propagates the failure. -/

/-- `getReviews`: on success filter out bot reviewers, on failure return
the empty list. -/
def getReviews (fetched : Except String (List GitHubReview)) : List GitHubReview :=
  match fetched with
  | Except.ok reviews => reviews.filter (fun review => !isBotUser review.user)
  | Except.error _ => []

/-! ## Review-metrics aggregator (`calculateReviewMetrics`, lines 324-532) -/

/-- One entry of the `reviewerStats` object (keyed by reviewer login, in
insertion order). -/
structure ReviewerStat where
  login : String
  count : Nat
  avatar_url : String
deriving DecidableEq

/-- Lines 396-404: an absent login is first inserted with count 0 and the
review's avatar, then its count is incremented; a present login keeps its
position and first-seen avatar and its count is incremented. -/
def bumpReviewer : List ReviewerStat → GitHubUser → List ReviewerStat
  | [], u => [⟨u.login, 1, u.avatar_url⟩]
  | s :: rest, u =>
      if s.login = u.login then { s with count := s.count + 1 } :: rest
      else s :: bumpReviewer rest u

/-- One cell of the `dailyReviews` object: the day's review count and the
raw per-review times pushed for that day. -/
structure DailyCell where
  reviews : Nat
  times : List ℚ
deriving DecidableEq

/-- Lines 412-417: an absent date is initialised to `{reviews: 0, times: []}`
and then bumped, so a new date appends `(1, [t])`; a present date is bumped
in place. -/
def bumpDaily : List (Int × DailyCell) → Int → ℚ → List (Int × DailyCell)
  | [], d, t => [(d, ⟨1, [t]⟩)]
  | (d', c) :: rest, d, t =>
      if d' = d then (d', ⟨c.reviews + 1, c.times ++ [t]⟩) :: rest
      else (d', c) :: bumpDaily rest d t

/-- The `stateDistribution` object (line 339). -/
structure StateDistribution where
  approved : Nat
  changesRequested : Nat
  commented : Nat
  pending : Nat
deriving DecidableEq

/-- The mutable accumulators of lines 333-339, threaded through the
`Object.entries(allReviews).forEach` pass. -/
structure ReviewAccum where
  totalReviews : Nat
  reviewsLast7Days : Nat
  reviewsLast30Days : Nat
  reviewerStats : List ReviewerStat
  reviewTimes : List ℚ
  dailyReviews : List (Int × DailyCell)
  approved : Nat
  changesRequested : Nat
  commented : Nat
deriving DecidableEq

def initReviewAccum : ReviewAccum := ⟨0, 0, 0, [], [], [], 0, 0, 0⟩

/-- `hoursToReview` (lines 406-408): raw signed latency in hours between PR
creation and review submission; negative when the review predates the PR. -/
def hoursToReview (pr : GitHubPullRequest) (review : GitHubReview) : ℚ :=
  ((review.submitted_at - pr.created_at : Int) : ℚ) / (1000 * 60 * 60)

/-- The body of `reviews.forEach(review => ...)` (lines 386-431). -/
def processOneReview (now : Int) (pr : GitHubPullRequest) (acc : ReviewAccum)
    (review : GitHubReview) : ReviewAccum :=
  let reviewDate := review.submitted_at
  let t := hoursToReview pr review
  { totalReviews := acc.totalReviews + 1
    reviewsLast7Days :=
      acc.reviewsLast7Days + (if daysAgoMs now 7 ≤ reviewDate then 1 else 0)
    reviewsLast30Days :=
      acc.reviewsLast30Days + (if daysAgoMs now 30 ≤ reviewDate then 1 else 0)
    reviewerStats := bumpReviewer acc.reviewerStats review.user
    reviewTimes := acc.reviewTimes ++ [t]
    dailyReviews := bumpDaily acc.dailyReviews (dayOf reviewDate) t
    approved := acc.approved + (if review.state = ReviewState.APPROVED then 1 else 0)
    changesRequested :=
      acc.changesRequested +
        (if review.state = ReviewState.CHANGES_REQUESTED then 1 else 0)
    commented := acc.commented + (if review.state = ReviewState.COMMENTED then 1 else 0) }

/-- Lines 366-384: parse the composite key `owner/repo#number` and resolve
the owning pull request: the first fetched PR whose number equals the key's
number, provided the repository map's value for the key equals the key's
own repo segment.  Any parse failure resolves to `none`. -/
def resolveEntryPR (pullRequests : List GitHubPullRequest)
    (repoMap : List (String × String)) (compositeKey : String) :
    Option GitHubPullRequest :=
  match splitOnChar '#' compositeKey with
  | [repoPath, prNumberStr] =>
      if repoPath = "" ∨ prNumberStr = "" then none
      else
        match splitOnChar '/' repoPath with
        | [_, repoName] =>
            if repoName = "" then none
            else
              match parseIntJS prNumberStr with
              | some prNumber =>
                  pullRequests.find? (fun p =>
                    decide (p.number = prNumber) &&
                      decide (lookupRecord repoMap compositeKey = some repoName))
              | none => none
        | _ => none
  | _ => none

/-- One iteration of `Object.entries(allReviews).forEach` (lines 366-432):
an entry whose PR cannot be resolved leaves every accumulator unchanged. -/
def processEntry (now : Int) (pullRequests : List GitHubPullRequest)
    (repoMap : List (String × String)) (acc : ReviewAccum)
    (entry : String × List GitHubReview) : ReviewAccum :=
  match resolveEntryPR pullRequests repoMap entry.1 with
  | some pr => entry.2.foldl (processOneReview now pr) acc
  | none => acc

/-- The whole review-processing pass (lines 366-432). -/
def reviewAccumOf (now : Int) (pullRequests : List GitHubPullRequest)
    (allReviews : List (String × List GitHubReview))
    (repoMap : List (String × String)) : ReviewAccum :=
  allReviews.foldl (processEntry now pullRequests repoMap) initReviewAccum

/-- The number segment of a composite key as parsed at lines 441-445 (and
581-583): the key must split into exactly two `#`-separated parts, the
number part must be non-empty, and `parseInt` of it must not be `NaN`. -/
def keyNumberOf (key : String) : Option Int :=
  match splitOnChar '#' key with
  | [_, numberStr] => if numberStr = "" then none else parseIntJS numberStr
  | _ => none

/-- The key predicate of the `Object.keys(repoMap).find(...)` scan
(lines 440-446; lines 578-584 are textually identical): the key's parsed
number segment equals the item's number and the key's mapped value is
truthy.  The scan never compares the key against the item's own
repository. -/
def scanKeyPred (repoMap : List (String × String)) (itemNumber : Int)
    (key : String) : Bool :=
  match keyNumberOf key with
  | some n => decide (n = itemNumber) && recordTruthy repoMap key
  | none => false

/-- The `Object.keys(repoMap).find(...)` scan itself: the first key of the
map (in insertion order) satisfying `scanKeyPred`. -/
def findWorklistKey (repoMap : List (String × String)) (itemNumber : Int) :
    Option String :=
  (repoMap.map Prod.fst).find? (scanKeyPred repoMap itemNumber)

/-- Line 448: the reviews attributed to a PR by the worklist pass —
`allReviews` at the scanned key, defaulting to the empty list. -/
def prReviewsFor (allReviews : List (String × List GitHubReview))
    (repoMap : List (String × String)) (itemNumber : Int) : List GitHubReview :=
  match findWorklistKey repoMap itemNumber with
  | some key => (lookupRecord allReviews key).getD []
  | none => []

/-- Line 449. -/
def approvalsOf (prReviews : List GitHubReview) : Nat :=
  (prReviews.filter (fun r => decide (r.state = ReviewState.APPROVED))).length

/-- Line 450. -/
def changesRequestedOf (prReviews : List GitHubReview) : Nat :=
  (prReviews.filter (fun r => decide (r.state = ReviewState.CHANGES_REQUESTED))).length

/-- Line 454: needing review — zero reviews, or every review comment-only. -/
def needsReviewCond (prReviews : List GitHubReview) : Bool :=
  prReviews.length == 0 ||
    prReviews.all (fun r => decide (r.state = ReviewState.COMMENTED))

/-- Line 469: ready to merge — at least one approval and no outstanding
change requests. -/
def readyToMergeCond (prReviews : List GitHubReview) : Bool :=
  decide (0 < approvalsOf prReviews) && decide (changesRequestedOf prReviews = 0)

/-- Line 437: only open, non-merged, non-draft PRs are considered. -/
def isWorklistCandidate (pr : GitHubPullRequest) : Bool :=
  decide (pr.state = "open") && pr.merged_at.isNone && !pr.draft

/-- Line 451: PR age in hours at aggregation time. -/
def prAgeHours (now : Int) (pr : GitHubPullRequest) : ℚ :=
  ((now - pr.created_at : Int) : ℚ) / (1000 * 60 * 60)

/-- An entry of the `prsNeedingReview` worklist. -/
structure PRNeedingReview where
  number : Int
  title : String
  author : String
  authorAvatar : String
  createdAt : Int
  url : String
  repository : String
  ageHours : ℚ
  isDraft : Bool
deriving DecidableEq

/-- An entry of the `prsReadyToMerge` worklist. -/
structure PRReadyToMerge where
  number : Int
  title : String
  author : String
  authorAvatar : String
  createdAt : Int
  url : String
  repository : String
  approvals : Nat
  ageHours : ℚ
deriving DecidableEq

/-- Lines 462 and 477 (and 593 for issues): the repository reported for a
worklist entry — the map's value at the scanned key, else `"unknown"`. -/
def resolvedRepository (repoMap : List (String × String)) (itemNumber : Int) :
    String :=
  match findWorklistKey repoMap itemNumber with
  | some key => (lookupRecord repoMap key).getD "unknown"
  | none => "unknown"

/-- The record pushed at lines 455-465. -/
def needEntryOf (now : Int) (repoMap : List (String × String))
    (pr : GitHubPullRequest) : PRNeedingReview :=
  { number := pr.number, title := pr.title, author := pr.user.login,
    authorAvatar := pr.user.avatar_url, createdAt := pr.created_at,
    url := pr.html_url, repository := resolvedRepository repoMap pr.number,
    ageHours := round1 (prAgeHours now pr), isDraft := pr.draft }

/-- The record pushed at lines 470-480. -/
def readyEntryOf (now : Int) (allReviews : List (String × List GitHubReview))
    (repoMap : List (String × String)) (pr : GitHubPullRequest) : PRReadyToMerge :=
  { number := pr.number, title := pr.title, author := pr.user.login,
    authorAvatar := pr.user.avatar_url, createdAt := pr.created_at,
    url := pr.html_url, repository := resolvedRepository repoMap pr.number,
    approvals := approvalsOf (prReviewsFor allReviews repoMap pr.number),
    ageHours := round1 (prAgeHours now pr) }

/-- The `prsNeedingReview` array as accumulated by the
`pullRequests.forEach` pass (lines 435-466), before sorting/truncation. -/
def prsNeedingReviewFull (now : Int)
    (allReviews : List (String × List GitHubReview))
    (repoMap : List (String × String))
    (pullRequests : List GitHubPullRequest) : List PRNeedingReview :=
  pullRequests.filterMap (fun pr =>
    if isWorklistCandidate pr &&
        needsReviewCond (prReviewsFor allReviews repoMap pr.number) then
      some (needEntryOf now repoMap pr)
    else none)

/-- The `prsReadyToMerge` array as accumulated by the same pass
(lines 435-482), before sorting/truncation. -/
def prsReadyToMergeFull (now : Int)
    (allReviews : List (String × List GitHubReview))
    (repoMap : List (String × String))
    (pullRequests : List GitHubPullRequest) : List PRReadyToMerge :=
  pullRequests.filterMap (fun pr =>
    if isWorklistCandidate pr &&
        readyToMergeCond (prReviewsFor allReviews repoMap pr.number) then
      some (readyEntryOf now allReviews repoMap pr)
    else none)

/-- Ascending-age comparator for `prsNeedingReview.sort` (line 529);
`Array.prototype.sort` is stable, so `List.insertionSort` models it. -/
def byAgeNeed (a b : PRNeedingReview) : Prop := a.ageHours ≤ b.ageHours

instance : DecidableRel byAgeNeed := fun a b =>
  inferInstanceAs (Decidable (a.ageHours ≤ b.ageHours))

instance : IsTotal PRNeedingReview byAgeNeed :=
  ⟨fun a b => le_total a.ageHours b.ageHours⟩

instance : IsTrans PRNeedingReview byAgeNeed :=
  ⟨fun _ _ _ h h' => le_trans h h'⟩

/-- Ascending-age comparator for `prsReadyToMerge.sort` (line 530). -/
def byAgeReady (a b : PRReadyToMerge) : Prop := a.ageHours ≤ b.ageHours

instance : DecidableRel byAgeReady := fun a b =>
  inferInstanceAs (Decidable (a.ageHours ≤ b.ageHours))

instance : IsTotal PRReadyToMerge byAgeReady :=
  ⟨fun a b => le_total a.ageHours b.ageHours⟩

instance : IsTrans PRReadyToMerge byAgeReady :=
  ⟨fun _ _ _ h h' => le_trans h h'⟩

/-- An entry of the published `topReviewers` list. -/
structure TopReviewer where
  username : String
  reviewCount : Nat
  avatarUrl : String
deriving DecidableEq

/-- Descending-count comparator for the `topReviewers` sort (line 508);
the JavaScript sort is stable, so ties keep insertion (first-seen) order. -/
def countGe (a b : ReviewerStat) : Prop := b.count ≤ a.count

instance : DecidableRel countGe := fun a b =>
  inferInstanceAs (Decidable (b.count ≤ a.count))

instance : IsTotal ReviewerStat countGe := ⟨fun a b => Nat.le_total b.count a.count⟩

instance : IsTrans ReviewerStat countGe := ⟨fun _ _ _ h h' => le_trans h' h⟩

/-- Lines 507-514: stable descending-count sort of the reviewer stats,
truncated to 10, projected to the published shape. -/
def topReviewersOf (reviewerStats : List ReviewerStat) : List TopReviewer :=
  ((List.insertionSort countGe reviewerStats).take 10).map
    (fun s => ⟨s.login, s.count, s.avatar_url⟩)

/-- A point of the published 14-day daily review series; `date` is the day
index standing for the `YYYY-MM-DD` string. -/
structure DailyReviewPoint where
  date : Int
  reviews : Nat
  avgTimeHours : ℚ
deriving DecidableEq

/-- Lines 488-501: one point per day for `i = 13` down to `0`, defaulting
to zero reviews and zero average when the day has no data. -/
def dailyReviewDataOf (now : Int) (dailyReviews : List (Int × DailyCell)) :
    List DailyReviewPoint :=
  (List.range 14).map (fun k =>
    let i : Int := 13 - (k : Int)
    let dateIdx := dayOf (daysAgoMs now i)
    let dayData := (lookupRecord dailyReviews dateIdx).getD ⟨0, []⟩
    { date := dateIdx, reviews := dayData.reviews,
      avgTimeHours :=
        if 0 < dayData.times.length then
          dayData.times.sum / (dayData.times.length : ℚ)
        else 0 })

/-- The `reviewVelocity` record (lines 522-526). -/
structure ReviewVelocity where
  daily : ℚ
  weekly : Nat
  monthly : Nat
deriving DecidableEq

/-- The published `ReviewMetrics` shape. -/
structure ReviewMetrics where
  totalReviews : Nat
  reviewsLast7Days : Nat
  reviewsLast30Days : Nat
  averageReviewTimeHours : ℚ
  topReviewers : List TopReviewer
  reviewVelocity : ReviewVelocity
  dailyReviewData : List DailyReviewPoint
  reviewStateDistribution : StateDistribution
  prsNeedingReview : List PRNeedingReview
  prsReadyToMerge : List PRReadyToMerge
deriving DecidableEq

/-- `calculateReviewMetrics` (lines 324-532).  The `pending` bucket is the
length of the un-truncated `prsNeedingReview` array (line 485, before the
line-529 sort-and-slice). -/
def calculateReviewMetrics (pullRequests : List GitHubPullRequest)
    (allReviews : List (String × List GitHubReview))
    (repoMap : List (String × String)) (now : Int) : ReviewMetrics :=
  let acc := reviewAccumOf now pullRequests allReviews repoMap
  let prsNeedingReview := prsNeedingReviewFull now allReviews repoMap pullRequests
  let prsReadyToMerge := prsReadyToMergeFull now allReviews repoMap pullRequests
  let averageReviewTimeHours : ℚ :=
    if 0 < acc.reviewTimes.length then
      acc.reviewTimes.sum / (acc.reviewTimes.length : ℚ)
    else 0
  { totalReviews := acc.totalReviews
    reviewsLast7Days := acc.reviewsLast7Days
    reviewsLast30Days := acc.reviewsLast30Days
    averageReviewTimeHours := round2 averageReviewTimeHours
    topReviewers := topReviewersOf acc.reviewerStats
    reviewVelocity :=
      ⟨(acc.reviewsLast7Days : ℚ) / 7, acc.reviewsLast7Days, acc.reviewsLast30Days⟩
    dailyReviewData := dailyReviewDataOf now acc.dailyReviews
    reviewStateDistribution :=
      ⟨acc.approved, acc.changesRequested, acc.commented, prsNeedingReview.length⟩
    prsNeedingReview := (List.insertionSort byAgeNeed prsNeedingReview).take 20
    prsReadyToMerge := (List.insertionSort byAgeReady prsReadyToMerge).take 20 }

/-! ## Issue-metrics aggregator (`calculateIssueMetrics`, lines 534-637) -/

/-- The fixed recognized label set of line 545. -/
def recognizedLabelNames : List String :=
  ["bug", "enhancement", "feature", "documentation", "question", "help wanted",
   "good first issue"]

/-- The pending-triage filter body (lines 542-547): zero labels, or no
label whose lowercased name is recognized. -/
def pendingTriagePred (issue : GitHubIssue) : Bool :=
  issue.labels.length == 0 ||
    !(issue.labels.any (fun label => recognizedLabelNames.contains (strToLower label.name)))

/-- Line 538. -/
def openIssuesOf (issues : List GitHubIssue) : List GitHubIssue :=
  issues.filter (fun issue => decide (issue.state = "open"))

/-- Line 539. -/
def closedIssuesOf (issues : List GitHubIssue) : List GitHubIssue :=
  issues.filter (fun issue => decide (issue.state = "closed"))

/-- Lines 542-547: pending triage is computed over open issues only. -/
def pendingTriageOf (issues : List GitHubIssue) : List GitHubIssue :=
  (openIssuesOf issues).filter pendingTriagePred

/-- Lines 549-552. -/
def recentlyTriagedOf (now : Int) (issues : List GitHubIssue) : List GitHubIssue :=
  issues.filter (fun issue =>
    decide (daysAgoMs now 7 ≤ issue.updated_at) && decide (0 < issue.labels.length))

/-- Line 564-565: issue age in hours at aggregation time. -/
def issueAgeHours (now : Int) (issue : GitHubIssue) : ℚ :=
  ((now - issue.created_at : Int) : ℚ) / (1000 * 60 * 60)

/-- The `ageDistribution` buckets (lines 555-560). -/
structure AgeDistribution where
  lessThan24h : Nat
  oneToSevenDays : Nat
  sevenToThirtyDays : Nat
  moreThanThirtyDays : Nat
deriving DecidableEq

/-- The `if`/`else if` chain of lines 567-575: exactly one bucket is
incremented per pending-triage issue. -/
def bumpAgeDistribution (d : AgeDistribution) (ageInHours : ℚ) : AgeDistribution :=
  if ageInHours < 24 then { d with lessThan24h := d.lessThan24h + 1 }
  else if ageInHours < 24 * 7 then { d with oneToSevenDays := d.oneToSevenDays + 1 }
  else if ageInHours < 24 * 30 then
    { d with sevenToThirtyDays := d.sevenToThirtyDays + 1 }
  else { d with moreThanThirtyDays := d.moreThanThirtyDays + 1 }

/-- The age distribution accumulated over the pending-triage issues during
the `pendingTriage.map` pass (lines 563-575). -/
def ageDistributionOf (now : Int) (issues : List GitHubIssue) : AgeDistribution :=
  (pendingTriageOf issues).foldl
    (fun d issue => bumpAgeDistribution d (issueAgeHours now issue)) ⟨0, 0, 0, 0⟩

/-- An entry of the published `issuesPendingTriage` worklist. -/
structure IssuePendingTriage where
  number : Int
  title : String
  author : String
  authorAvatar : String
  createdAt : Int
  url : String
  repository : String
  ageHours : ℚ
  labels : List String
deriving DecidableEq

/-- The record built at lines 586-596; the repository is resolved by the
same number-only key scan as for pull requests (lines 578-584). -/
def issueEntryOf (now : Int) (repoMap : List (String × String))
    (issue : GitHubIssue) : IssuePendingTriage :=
  { number := issue.number, title := issue.title, author := issue.user.login,
    authorAvatar := issue.user.avatar_url, createdAt := issue.created_at,
    url := issue.html_url, repository := resolvedRepository repoMap issue.number,
    ageHours := round1 (issueAgeHours now issue),
    labels := issue.labels.map (fun label => label.name) }

/-- The `issuesPendingTriage` array before sorting/truncation (line 563-597). -/
def issuesPendingTriageFull (now : Int) (repoMap : List (String × String))
    (issues : List GitHubIssue) : List IssuePendingTriage :=
  (pendingTriageOf issues).map (issueEntryOf now repoMap)

/-- Ascending-age comparator for the line-597 sort. -/
def byAgeIssue (a b : IssuePendingTriage) : Prop := a.ageHours ≤ b.ageHours

instance : DecidableRel byAgeIssue := fun a b =>
  inferInstanceAs (Decidable (a.ageHours ≤ b.ageHours))

instance : IsTotal IssuePendingTriage byAgeIssue :=
  ⟨fun a b => le_total a.ageHours b.ageHours⟩

instance : IsTrans IssuePendingTriage byAgeIssue :=
  ⟨fun _ _ _ h h' => le_trans h h'⟩

/-- A point of the 14-day daily triage series (lines 599-621). -/
structure DailyTriagePoint where
  date : Int
  triaged : Nat
  pending : Nat
  total : Nat
deriving DecidableEq

/-- Lines 599-621: `triaged` counts issues updated on the date with at
least one label; `pending` counts issues created on the date with none. -/
def dailyTriageDataOf (now : Int) (issues : List GitHubIssue) :
    List DailyTriagePoint :=
  (List.range 14).map (fun k =>
    let i : Int := 13 - (k : Int)
    let dateIdx := dayOf (daysAgoMs now i)
    let dayTriaged :=
      (issues.filter (fun issue =>
        decide (dayOf issue.updated_at = dateIdx) &&
          decide (0 < issue.labels.length))).length
    let dayPending :=
      (issues.filter (fun issue =>
        decide (dayOf issue.created_at = dateIdx) && issue.labels.length == 0)).length
    ⟨dateIdx, dayTriaged, dayPending, dayTriaged + dayPending⟩)

/-- The `triageVelocity` record (lines 629-632). -/
structure TriageVelocity where
  daily : ℚ
  weekly : Nat
deriving DecidableEq

/-- The published `IssueMetrics` shape. -/
structure IssueMetrics where
  totalIssues : Nat
  openIssues : Nat
  closedIssues : Nat
  pendingTriage : Nat
  recentlyTriaged : Nat
  triageVelocity : TriageVelocity
  ageDistribution : AgeDistribution
  dailyTriageData : List DailyTriagePoint
  issuesPendingTriage : List IssuePendingTriage
deriving DecidableEq

/-- `calculateIssueMetrics` (lines 534-637). -/
def calculateIssueMetrics (issues : List GitHubIssue)
    (repoMap : List (String × String)) (now : Int) : IssueMetrics :=
  { totalIssues := issues.length
    openIssues := (openIssuesOf issues).length
    closedIssues := (closedIssuesOf issues).length
    pendingTriage := (pendingTriageOf issues).length
    recentlyTriaged := (recentlyTriagedOf now issues).length
    triageVelocity :=
      ⟨((recentlyTriagedOf now issues).length : ℚ) / 7,
        (recentlyTriagedOf now issues).length⟩
    ageDistribution := ageDistributionOf now issues
    dailyTriageData := dailyTriageDataOf now issues
    issuesPendingTriage :=
      (List.insertionSort byAgeIssue (issuesPendingTriageFull now repoMap issues)).take 50 }

/-! ## Orchestrator data collection (`generateAnalytics`, lines 643-719)

The per-repository fetch results are embedded as a `RepoData` record: the
`pullRequests` and `issues` fields are the outputs of the paginated
fetchers, and `reviewsFetch` is the raw per-PR review-fetch outcome that
`getReviews` consumes. -/

/-- One repository's fetch results. -/
structure RepoData where
  owner : String
  name : String
  pullRequests : List GitHubPullRequest
  issues : List GitHubIssue
  reviewsFetch : Int → Except String (List GitHubReview)

/-- The composite key `${owner}/${name}#${number}` (lines 675, 686, 698). -/
def compositeKey (owner repoName : String) (number : Int) : String :=
  owner ++ "/" ++ repoName ++ "#" ++ toString number

/-- The accumulating collections of lines 659-662. -/
structure CollectedData where
  allPullRequests : List GitHubPullRequest
  allReviews : List (String × List GitHubReview)
  repoMap : List (String × String)

/-- The body of the per-repository loop (lines 665-707): record every PR
key in the repository map, fetch reviews only for the first 30 PRs (line
682) and store only non-empty review lists (line 685), then record every
issue key. -/
def collectRepo (acc : CollectedData) (repo : RepoData) : CollectedData :=
  let pullRequests := repo.pullRequests
  let repoMap1 := pullRequests.foldl
    (fun m pr => recordSet m (compositeKey repo.owner repo.name pr.number) repo.name)
    acc.repoMap
  let recentPRs := pullRequests.take 30
  let allReviews1 := recentPRs.foldl
    (fun ar pr =>
      let reviews := getReviews (repo.reviewsFetch pr.number)
      if 0 < reviews.length then
        recordSet ar (compositeKey repo.owner repo.name pr.number) reviews
      else ar)
    acc.allReviews
  let repoMap2 := repo.issues.foldl
    (fun m issue =>
      recordSet m (compositeKey repo.owner repo.name issue.number) repo.name)
    repoMap1
  { allPullRequests := acc.allPullRequests ++ pullRequests
    allReviews := allReviews1
    repoMap := repoMap2 }

/-- Lines 651-707: only the first 15 fetched repositories are processed. -/
def collectData (repositories : List RepoData) : CollectedData :=
  (repositories.take 15).foldl collectRepo ⟨[], [], []⟩

/-! ## General lemmas about the embedded operations -/

theorem lookupRecord_nil {κ β : Type} [DecidableEq κ] (k : κ) :
    lookupRecord ([] : List (κ × β)) k = none := rfl

theorem lookupRecord_cons {κ β : Type} [DecidableEq κ] (k' : κ) (v : β)
    (m : List (κ × β)) (k : κ) :
    lookupRecord ((k', v) :: m) k = if k' = k then some v else lookupRecord m k := by
  by_cases h : k' = k <;> simp [lookupRecord, List.find?, h]

theorem lookupRecord_isSome_mem {κ β : Type} [DecidableEq κ]
    {m : List (κ × β)} {k : κ} {v : β}
    (h : lookupRecord m k = some v) : (k, v) ∈ m := by
  induction m with
  | nil => simp [lookupRecord] at h
  | cons kv rest ih =>
      rcases kv with ⟨k', v'⟩
      rw [lookupRecord_cons] at h
      by_cases hk : k' = k
      · subst hk
        simp at h
        subst h
        exact List.mem_cons_self _ _
      · simp [hk] at h
        exact List.mem_cons_of_mem _ (ih h)

theorem needsReviewCond_eq_true_iff (l : List GitHubReview) :
    needsReviewCond l = true ↔
      l = [] ∨ ∀ r ∈ l, r.state = ReviewState.COMMENTED := by
  simp [needsReviewCond, List.length_eq_zero, List.all_eq_true]

theorem readyToMergeCond_eq_true_iff (l : List GitHubReview) :
    readyToMergeCond l = true ↔ 0 < approvalsOf l ∧ changesRequestedOf l = 0 := by
  simp [readyToMergeCond]

/-- The two worklist predicates of lines 454 and 469 are never both true of
the same resolved review list. -/
theorem needsReview_not_ready (l : List GitHubReview) :
    (needsReviewCond l && readyToMergeCond l) = false := by
  by_cases hn : needsReviewCond l = true
  · have h' := (needsReviewCond_eq_true_iff l).mp hn
    have happ : approvalsOf l = 0 := by
      rcases h' with h' | h'
      · simp [approvalsOf, h']
      · simp only [approvalsOf, List.length_eq_zero, List.filter_eq_nil_iff]
        intro r hr
        simp [h' r hr]
    simp [readyToMergeCond, happ]
  · simp [Bool.not_eq_true] at hn
    simp [hn]

theorem mem_prsNeedingReviewFull {now : Int}
    {allReviews : List (String × List GitHubReview)}
    {repoMap : List (String × String)} {pullRequests : List GitHubPullRequest}
    {n : PRNeedingReview} :
    n ∈ prsNeedingReviewFull now allReviews repoMap pullRequests ↔
      ∃ pr, pr ∈ pullRequests ∧ isWorklistCandidate pr = true ∧
        needsReviewCond (prReviewsFor allReviews repoMap pr.number) = true ∧
        n = needEntryOf now repoMap pr := by
  simp only [prsNeedingReviewFull, List.mem_filterMap]
  constructor
  · rintro ⟨pr, hpr, hf⟩
    refine ⟨pr, hpr, ?_⟩
    by_cases hc : (isWorklistCandidate pr &&
        needsReviewCond (prReviewsFor allReviews repoMap pr.number)) = true
    · rw [if_pos hc] at hf
      rw [Bool.and_eq_true] at hc
      exact ⟨hc.1, hc.2, (Option.some_inj.mp hf).symm⟩
    · rw [if_neg hc] at hf
      cases hf
  · rintro ⟨pr, hpr, hc, hr, hn⟩
    exact ⟨pr, hpr, by rw [if_pos (by rw [Bool.and_eq_true]; exact ⟨hc, hr⟩), hn]⟩

theorem mem_prsReadyToMergeFull {now : Int}
    {allReviews : List (String × List GitHubReview)}
    {repoMap : List (String × String)} {pullRequests : List GitHubPullRequest}
    {r : PRReadyToMerge} :
    r ∈ prsReadyToMergeFull now allReviews repoMap pullRequests ↔
      ∃ pr, pr ∈ pullRequests ∧ isWorklistCandidate pr = true ∧
        readyToMergeCond (prReviewsFor allReviews repoMap pr.number) = true ∧
        r = readyEntryOf now allReviews repoMap pr := by
  simp only [prsReadyToMergeFull, List.mem_filterMap]
  constructor
  · rintro ⟨pr, hpr, hf⟩
    refine ⟨pr, hpr, ?_⟩
    by_cases hc : (isWorklistCandidate pr &&
        readyToMergeCond (prReviewsFor allReviews repoMap pr.number)) = true
    · rw [if_pos hc] at hf
      rw [Bool.and_eq_true] at hc
      exact ⟨hc.1, hc.2, (Option.some_inj.mp hf).symm⟩
    · rw [if_neg hc] at hf
      cases hf
  · rintro ⟨pr, hpr, hc, hr, hn⟩
    exact ⟨pr, hpr, by rw [if_pos (by rw [Bool.and_eq_true]; exact ⟨hc, hr⟩), hn]⟩

theorem prsNeedingReviewFull_disjoint_ready {now : Int}
    {allReviews : List (String × List GitHubReview)}
    {repoMap : List (String × String)} {pullRequests : List GitHubPullRequest}
    {n : PRNeedingReview} {r : PRReadyToMerge}
    (hn : n ∈ prsNeedingReviewFull now allReviews repoMap pullRequests)
    (hr : r ∈ prsReadyToMergeFull now allReviews repoMap pullRequests) :
    n.number ≠ r.number := by
  rcases mem_prsNeedingReviewFull.mp hn with ⟨pr1, _, _, hcond1, hn1⟩
  rcases mem_prsReadyToMergeFull.mp hr with ⟨pr2, _, _, hcond2, hr1⟩
  intro heq
  have hnum : pr1.number = pr2.number := by
    have e1 : n.number = pr1.number := by rw [hn1]; rfl
    have e2 : r.number = pr2.number := by rw [hr1]; rfl
    rw [e1] at heq
    rw [e2] at heq
    exact heq
  rw [hnum] at hcond1
  have := needsReview_not_ready (prReviewsFor allReviews repoMap pr2.number)
  rw [hcond1, hcond2] at this
  simp at this

/-! ## Claim C2 — pull-request pagination stop condition -/

/-- **C2**: for the pull-request fetcher, fetching stops after the first
page that either contains fewer than 100 items or contains at least one
pull request whose `updated_at` is before the lookback cutoff — even if
that page is full — and the returned list is the concatenation of the
consumed pages filtered to non-bot authors with `updated_at` on or after
the cutoff. -/
theorem C2_pull_request_pagination (since : Int) (pages : List (List GitHubPullRequest)) :
    getPullRequests since pages = ((consumedPages since pages).flatten).filter (keepPR since) := by
  induction pages with
  | nil => rfl
  | cons page rest ih =>
      by_cases hempty : page.isEmpty
      · have hnil : page = [] := by
          cases page with
          | nil => rfl
          | cons a l => simp [List.isEmpty] at hempty
        subst hnil
        simp [getPullRequests, consumedPages]
      · by_cases hstop :
          (decide (page.length < 100) || page.any fun pr => decide (pr.updated_at < since)) = true
        · simp only [getPullRequests, consumedPages, hempty, Bool.false_eq_true, if_false,
            hstop, if_true]
          simp
        · simp only [getPullRequests, consumedPages, hempty, Bool.false_eq_true, if_false,
            hstop, Bool.false_eq_true, if_false]
          rw [ih]
          simp [List.filter_append]

/-! ## Claim C3 — the two PR worklists never share a pull request -/

/-- **C3**: for every run and every open, non-merged, non-draft pull
request, the PR never appears in both the `prsNeedingReview` and the
`prsReadyToMerge` worklists: the needing-review predicate (zero reviews or
all comment-only) and the ready-to-merge predicate (≥ 1 approval, zero
change requests) are never both true of the same PR's resolved review
list; consequently no entry of the full (or published) needing-review list
shares a PR number with an entry of the full (or published) ready-to-merge
list. -/
theorem C3_worklists_never_conflict :
    (∀ l : List GitHubReview, (needsReviewCond l && readyToMergeCond l) = false) ∧
    (∀ (now : Int) (allReviews : List (String × List GitHubReview))
        (repoMap : List (String × String)) (pullRequests : List GitHubPullRequest),
      (∀ n ∈ prsNeedingReviewFull now allReviews repoMap pullRequests,
        ∀ r ∈ prsReadyToMergeFull now allReviews repoMap pullRequests,
          n.number ≠ r.number) ∧
      (∀ n ∈ (calculateReviewMetrics pullRequests allReviews repoMap now).prsNeedingReview,
        ∀ r ∈ (calculateReviewMetrics pullRequests allReviews repoMap now).prsReadyToMerge,
          n.number ≠ r.number)) := by
  refine ⟨needsReview_not_ready, fun now allReviews repoMap pullRequests => ⟨?_, ?_⟩⟩
  · intro n hn r hr
    exact prsNeedingReviewFull_disjoint_ready hn hr
  · intro n hn r hr
    have hn' : n ∈ prsNeedingReviewFull now allReviews repoMap pullRequests := by
      have h1 : n ∈ List.insertionSort byAgeNeed
          (prsNeedingReviewFull now allReviews repoMap pullRequests) :=
        List.mem_of_mem_take hn
      exact (List.perm_insertionSort byAgeNeed _).mem_iff.mp h1
    have hr' : r ∈ prsReadyToMergeFull now allReviews repoMap pullRequests := by
      have h1 : r ∈ List.insertionSort byAgeReady
          (prsReadyToMergeFull now allReviews repoMap pullRequests) :=
        List.mem_of_mem_take hr
      exact (List.perm_insertionSort byAgeReady _).mem_iff.mp h1
    exact prsNeedingReviewFull_disjoint_ready hn' hr'

/-- Scenario data for concrete witnesses: two ordinary users. -/
def wUserA : GitHubUser := ⟨"alice", "a.png", some "User"⟩

def wUserB : GitHubUser := ⟨"bob", "b.png", some "User"⟩

/-- An open PR (number 1) with no reviews. -/
def wPr1 : GitHubPullRequest := ⟨1, "one", wUserA, 0, 10, none, "open", "u1", false⟩

/-- An open PR (number 2) with one approving review. -/
def wPr2 : GitHubPullRequest := ⟨2, "two", wUserA, 0, 10, none, "open", "u2", false⟩

def wApproved : GitHubReview := ⟨11, wUserB, ReviewState.APPROVED, 500⟩

def wRepoMap : List (String × String) := [("o/A#1", "A"), ("o/A#2", "A")]

def wReviews : List (String × List GitHubReview) := [("o/A#2", [wApproved])]

/-- Witness for C3: in a concrete run with one PR needing review and one
PR ready to merge, the two worklist entries carry different PR numbers. -/
theorem C3_worklists_never_conflict_witness :
    (needEntryOf 1000 wRepoMap wPr1 ∈ prsNeedingReviewFull 1000 wReviews wRepoMap [wPr1, wPr2]) ∧
    (readyEntryOf 1000 wReviews wRepoMap wPr2 ∈ prsReadyToMergeFull 1000 wReviews wRepoMap [wPr1, wPr2]) ∧
    (needEntryOf 1000 wRepoMap wPr1).number ≠ (readyEntryOf 1000 wReviews wRepoMap wPr2).number := by
  have hn : needEntryOf 1000 wRepoMap wPr1 ∈
      prsNeedingReviewFull 1000 wReviews wRepoMap [wPr1, wPr2] :=
    mem_prsNeedingReviewFull.mpr
      ⟨wPr1, by simp, by decide, by decide, rfl⟩
  have hr : readyEntryOf 1000 wReviews wRepoMap wPr2 ∈
      prsReadyToMergeFull 1000 wReviews wRepoMap [wPr1, wPr2] :=
    mem_prsReadyToMergeFull.mpr
      ⟨wPr2, by simp, by decide, by decide, rfl⟩
  exact ⟨hn, hr,
    (C3_worklists_never_conflict.2 1000 wReviews wRepoMap [wPr1, wPr2]).1 _ hn _ hr⟩

/-! ## Claim C6 — pending-triage classification -/

/-- An open issue whose only label is `wontfix`. -/
def wontfixIssue : GitHubIssue :=
  ⟨5, "w", wUserA, 0, 0, none, "open", "iu5", [⟨"wontfix", "ccc"⟩], none⟩

/-- An open issue labelled `bug` and `wontfix`. -/
def bugWontfixIssue : GitHubIssue :=
  ⟨6, "bw", wUserA, 0, 0, none, "open", "iu6", [⟨"bug", "c"⟩, ⟨"wontfix", "c"⟩], none⟩

/-- A closed issue whose only label is `wontfix`. -/
def closedWontfixIssue : GitHubIssue :=
  ⟨7, "cw", wUserA, 0, 0, some 5, "closed", "iu7", [⟨"wontfix", "c"⟩], none⟩

/-- **C6**: an issue is pending triage iff it is open and either has zero
labels or none of its label names (lowercased) is in the fixed recognized
set; an issue labelled only `wontfix` is pending triage, one labelled
`bug` and `wontfix` is not, and closed issues never are. -/
theorem C6_pending_triage_rule :
    (∀ (issues : List GitHubIssue) (issue : GitHubIssue),
      issue ∈ pendingTriageOf issues ↔
        issue ∈ issues ∧ issue.state = "open" ∧
          (issue.labels = [] ∨
            ∀ label ∈ issue.labels, strToLower label.name ∉ recognizedLabelNames)) ∧
    (wontfixIssue ∈ pendingTriageOf [wontfixIssue]) ∧
    (bugWontfixIssue ∉ pendingTriageOf [bugWontfixIssue]) ∧
    (closedWontfixIssue ∉ pendingTriageOf [closedWontfixIssue]) := by
  refine ⟨?_, by decide, by decide, by decide⟩
  intro issues issue
  simp only [pendingTriageOf, openIssuesOf, pendingTriagePred, List.mem_filter,
    List.length_eq_zero, Bool.or_eq_true, beq_iff_eq, Bool.not_eq_true', List.any_eq_false,
    decide_eq_true_eq, Bool.and_eq_true, List.elem_iff, and_assoc]

/-! ## Claim C7 — a per-PR review-fetch failure yields the empty list -/

/-- **C7**: a failure while fetching one pull request's reviews is caught
inside `getReviews`, which then returns the empty review list; success
returns the bot-filtered list.  The function is total (its result type is
a plain list), so the failure never propagates to the caller. -/
theorem C7_review_fetch_failure_isolated :
    (∀ err : String, getReviews (Except.error err) = []) ∧
    (∀ reviews : List GitHubReview,
      getReviews (Except.ok reviews) = reviews.filter (fun r => !isBotUser r.user)) :=
  ⟨fun _ => rfl, fun _ => rfl⟩

/-! ## Claim C8 — half-open age-distribution buckets -/

/-- **C8**: the age-distribution buckets over pending-triage issues are
half-open: an age `a` (hours) increments `lessThan24h` iff `a < 24`,
`oneToSevenDays` iff `24 ≤ a < 168`, `sevenToThirtyDays` iff
`168 ≤ a < 720`, and `moreThanThirtyDays` iff `720 ≤ a`; in particular
exactly 24 is not `lessThan24h`, exactly 168 is not `oneToSevenDays`, and
exactly 720 is not `sevenToThirtyDays`. -/
theorem C8_age_bucket_boundaries :
    (∀ (d : AgeDistribution) (a : ℚ),
      ((bumpAgeDistribution d a).lessThan24h =
        d.lessThan24h + if a < 24 then 1 else 0) ∧
      ((bumpAgeDistribution d a).oneToSevenDays =
        d.oneToSevenDays + if 24 ≤ a ∧ a < 168 then 1 else 0) ∧
      ((bumpAgeDistribution d a).sevenToThirtyDays =
        d.sevenToThirtyDays + if 168 ≤ a ∧ a < 720 then 1 else 0) ∧
      ((bumpAgeDistribution d a).moreThanThirtyDays =
        d.moreThanThirtyDays + if 720 ≤ a then 1 else 0)) ∧
    (∀ (issues : List GitHubIssue) (repoMap : List (String × String)) (now : Int),
      (calculateIssueMetrics issues repoMap now).ageDistribution =
        ageDistributionOf now issues) ∧
    (bumpAgeDistribution ⟨0, 0, 0, 0⟩ 24 = ⟨0, 1, 0, 0⟩) ∧
    (bumpAgeDistribution ⟨0, 0, 0, 0⟩ 168 = ⟨0, 0, 1, 0⟩) ∧
    (bumpAgeDistribution ⟨0, 0, 0, 0⟩ 720 = ⟨0, 0, 0, 1⟩) := by
  refine ⟨?_, fun _ _ _ => rfl, ?_, ?_, ?_⟩
  · intro d a
    by_cases h1 : a < 24
    · have h2 : ¬(24 ≤ a) := by linarith
      have h3 : ¬(168 ≤ a) := by linarith
      have h4 : ¬(720 ≤ a) := by linarith
      simp [bumpAgeDistribution, h1, h2, h3, h4]
    · by_cases h2 : a < 24 * 7
      · have h24 : 24 ≤ a := not_lt.mp h1
        have h4 : a < 168 := by linarith
        have h5 : ¬(168 ≤ a) := by linarith
        have h6 : ¬(720 ≤ a) := by linarith
        simp [bumpAgeDistribution, h1, h2, h24, h4, h5, h6]
      · by_cases h3 : a < 24 * 30
        · have h4 : 168 ≤ a := by nlinarith [not_lt.mp h2]
          have h5 : a < 720 := by linarith
          have h6 : ¬(720 ≤ a) := by linarith
          have h7 : ¬(a < 168) := by linarith
          simp [bumpAgeDistribution, h1, h2, h3, h4, h5, h6, h7]
        · have h4 : 720 ≤ a := by nlinarith [not_lt.mp h3]
          have h5 : ¬(a < 168) := by linarith
          have h6 : ¬(a < 720) := by linarith
          have h7 : ¬(24 ≤ a ∧ a < 168) := by rintro ⟨_, hh⟩; linarith
          simp [bumpAgeDistribution, h1, h2, h3, h4, h5, h6, h7]
  · show bumpAgeDistribution ⟨0, 0, 0, 0⟩ 24 = ⟨0, 1, 0, 0⟩
    rw [bumpAgeDistribution]
    norm_num
  · show bumpAgeDistribution ⟨0, 0, 0, 0⟩ 168 = ⟨0, 0, 1, 0⟩
    rw [bumpAgeDistribution]
    norm_num
  · show bumpAgeDistribution ⟨0, 0, 0, 0⟩ 720 = ⟨0, 0, 0, 1⟩
    rw [bumpAgeDistribution]
    norm_num

/-! ## Characterising the review-processing pass

The `Object.entries(allReviews).forEach` pass is equivalent to a single
left fold of `processOneReview` over the flattened list of
(resolved PR, review) pairs; every accumulator field is then characterised
by induction over that list. -/

/-- The (owning PR, review) pairs contributed by one `allReviews` entry:
none when the PR cannot be resolved. -/
def entryPairs (pullRequests : List GitHubPullRequest)
    (repoMap : List (String × String)) (entry : String × List GitHubReview) :
    List (GitHubPullRequest × GitHubReview) :=
  match resolveEntryPR pullRequests repoMap entry.1 with
  | some pr => entry.2.map (fun r => (pr, r))
  | none => []

/-- All (owning PR, review) pairs of the run, in processing order. -/
def resolvedPairs (pullRequests : List GitHubPullRequest)
    (allReviews : List (String × List GitHubReview))
    (repoMap : List (String × String)) :
    List (GitHubPullRequest × GitHubReview) :=
  (allReviews.map (entryPairs pullRequests repoMap)).flatten

/-- Folding `processOneReview` over a pair list from a given accumulator. -/
def pairsFoldFrom (now : Int) (acc : ReviewAccum)
    (ps : List (GitHubPullRequest × GitHubReview)) : ReviewAccum :=
  ps.foldl (fun a p => processOneReview now p.1 a p.2) acc

theorem pairsFoldFrom_append (now : Int) (acc : ReviewAccum)
    (xs ys : List (GitHubPullRequest × GitHubReview)) :
    pairsFoldFrom now acc (xs ++ ys) = pairsFoldFrom now (pairsFoldFrom now acc xs) ys := by
  simp [pairsFoldFrom, List.foldl_append]

theorem processEntry_eq_pairsFoldFrom (now : Int)
    (pullRequests : List GitHubPullRequest) (repoMap : List (String × String))
    (acc : ReviewAccum) (entry : String × List GitHubReview) :
    processEntry now pullRequests repoMap acc entry =
      pairsFoldFrom now acc (entryPairs pullRequests repoMap entry) := by
  unfold processEntry entryPairs
  cases resolveEntryPR pullRequests repoMap entry.1 with
  | none => rfl
  | some pr => simp [pairsFoldFrom, List.foldl_map]

theorem reviewAccumOf_eq_pairsFold (now : Int)
    (pullRequests : List GitHubPullRequest)
    (allReviews : List (String × List GitHubReview))
    (repoMap : List (String × String)) :
    reviewAccumOf now pullRequests allReviews repoMap =
      pairsFoldFrom now initReviewAccum (resolvedPairs pullRequests allReviews repoMap) := by
  unfold reviewAccumOf resolvedPairs
  generalize initReviewAccum = acc
  induction allReviews generalizing acc with
  | nil => rfl
  | cons e rest ih =>
      simp only [List.foldl_cons, List.map_cons, List.flatten_cons, pairsFoldFrom_append]
      rw [ih, processEntry_eq_pairsFoldFrom]

theorem pairsFoldFrom_totalReviews (now : Int)
    (ps : List (GitHubPullRequest × GitHubReview)) :
    ∀ acc, (pairsFoldFrom now acc ps).totalReviews = acc.totalReviews + ps.length := by
  induction ps with
  | nil => intro acc; simp [pairsFoldFrom]
  | cons p rest ih =>
      intro acc
      show (pairsFoldFrom now (processOneReview now p.1 acc p.2) rest).totalReviews = _
      rw [ih]
      simp [processOneReview]
      omega

theorem pairsFoldFrom_last7 (now : Int)
    (ps : List (GitHubPullRequest × GitHubReview)) :
    ∀ acc, (pairsFoldFrom now acc ps).reviewsLast7Days =
      acc.reviewsLast7Days +
        ps.countP (fun p => decide (daysAgoMs now 7 ≤ p.2.submitted_at)) := by
  induction ps with
  | nil => intro acc; simp [pairsFoldFrom]
  | cons p rest ih =>
      intro acc
      show (pairsFoldFrom now (processOneReview now p.1 acc p.2) rest).reviewsLast7Days = _
      rw [ih]
      by_cases h : daysAgoMs now 7 ≤ p.2.submitted_at <;>
        simp [processOneReview, h, List.countP_cons] <;> omega

theorem pairsFoldFrom_last30 (now : Int)
    (ps : List (GitHubPullRequest × GitHubReview)) :
    ∀ acc, (pairsFoldFrom now acc ps).reviewsLast30Days =
      acc.reviewsLast30Days +
        ps.countP (fun p => decide (daysAgoMs now 30 ≤ p.2.submitted_at)) := by
  induction ps with
  | nil => intro acc; simp [pairsFoldFrom]
  | cons p rest ih =>
      intro acc
      show (pairsFoldFrom now (processOneReview now p.1 acc p.2) rest).reviewsLast30Days = _
      rw [ih]
      by_cases h : daysAgoMs now 30 ≤ p.2.submitted_at <;>
        simp [processOneReview, h, List.countP_cons] <;> omega

theorem pairsFoldFrom_approved (now : Int)
    (ps : List (GitHubPullRequest × GitHubReview)) :
    ∀ acc, (pairsFoldFrom now acc ps).approved =
      acc.approved + ps.countP (fun p => decide (p.2.state = ReviewState.APPROVED)) := by
  induction ps with
  | nil => intro acc; simp [pairsFoldFrom]
  | cons p rest ih =>
      intro acc
      show (pairsFoldFrom now (processOneReview now p.1 acc p.2) rest).approved = _
      rw [ih]
      by_cases h : p.2.state = ReviewState.APPROVED <;>
        simp [processOneReview, h, List.countP_cons] <;> omega

theorem pairsFoldFrom_changesRequested (now : Int)
    (ps : List (GitHubPullRequest × GitHubReview)) :
    ∀ acc, (pairsFoldFrom now acc ps).changesRequested =
      acc.changesRequested +
        ps.countP (fun p => decide (p.2.state = ReviewState.CHANGES_REQUESTED)) := by
  induction ps with
  | nil => intro acc; simp [pairsFoldFrom]
  | cons p rest ih =>
      intro acc
      show (pairsFoldFrom now (processOneReview now p.1 acc p.2) rest).changesRequested = _
      rw [ih]
      by_cases h : p.2.state = ReviewState.CHANGES_REQUESTED <;>
        simp [processOneReview, h, List.countP_cons] <;> omega

theorem pairsFoldFrom_commented (now : Int)
    (ps : List (GitHubPullRequest × GitHubReview)) :
    ∀ acc, (pairsFoldFrom now acc ps).commented =
      acc.commented + ps.countP (fun p => decide (p.2.state = ReviewState.COMMENTED)) := by
  induction ps with
  | nil => intro acc; simp [pairsFoldFrom]
  | cons p rest ih =>
      intro acc
      show (pairsFoldFrom now (processOneReview now p.1 acc p.2) rest).commented = _
      rw [ih]
      by_cases h : p.2.state = ReviewState.COMMENTED <;>
        simp [processOneReview, h, List.countP_cons] <;> omega

theorem pairsFoldFrom_reviewTimes (now : Int)
    (ps : List (GitHubPullRequest × GitHubReview)) :
    ∀ acc, (pairsFoldFrom now acc ps).reviewTimes =
      acc.reviewTimes ++ ps.map (fun p => hoursToReview p.1 p.2) := by
  induction ps with
  | nil => intro acc; simp [pairsFoldFrom]
  | cons p rest ih =>
      intro acc
      show (pairsFoldFrom now (processOneReview now p.1 acc p.2) rest).reviewTimes = _
      rw [ih]
      simp [processOneReview]

theorem pairsFoldFrom_reviewerStats (now : Int)
    (ps : List (GitHubPullRequest × GitHubReview)) :
    ∀ acc, (pairsFoldFrom now acc ps).reviewerStats =
      (ps.map (fun p => p.2.user)).foldl bumpReviewer acc.reviewerStats := by
  induction ps with
  | nil => intro acc; simp [pairsFoldFrom]
  | cons p rest ih =>
      intro acc
      show (pairsFoldFrom now (processOneReview now p.1 acc p.2) rest).reviewerStats = _
      rw [ih]
      simp [processOneReview]

theorem length_filterMap_if {α β : Type} (p : α → Bool) (f : α → β) (l : List α) :
    (l.filterMap (fun a => if p a then some (f a) else none)).length = l.countP p := by
  induction l with
  | nil => rfl
  | cons a t ih =>
      by_cases h : p a = true <;> simp [List.filterMap_cons, h, List.countP_cons, ih]

/-! ## Claim C4 — the `pending` bucket counts PRs, the others count events -/

/-- **C4**: the `reviewStateDistribution.pending` bucket equals the number
of open, non-merged, non-draft PRs classified as needing review — a
PR-level count taken before the worklist is truncated to 20 entries, so
the published worklist's length is `min 20` of it — while the `approved`,
`changesRequested` and `commented` buckets count individual review events
over the resolved (PR, review) pairs. -/
theorem C4_pending_bucket_semantics (pullRequests : List GitHubPullRequest)
    (allReviews : List (String × List GitHubReview))
    (repoMap : List (String × String)) (now : Int) :
    ((calculateReviewMetrics pullRequests allReviews repoMap now).reviewStateDistribution.pending =
      (prsNeedingReviewFull now allReviews repoMap pullRequests).length) ∧
    ((prsNeedingReviewFull now allReviews repoMap pullRequests).length =
      pullRequests.countP (fun pr => isWorklistCandidate pr &&
        needsReviewCond (prReviewsFor allReviews repoMap pr.number))) ∧
    ((calculateReviewMetrics pullRequests allReviews repoMap now).prsNeedingReview.length =
      min 20 (prsNeedingReviewFull now allReviews repoMap pullRequests).length) ∧
    ((calculateReviewMetrics pullRequests allReviews repoMap now).reviewStateDistribution.approved =
      (resolvedPairs pullRequests allReviews repoMap).countP
        (fun p => decide (p.2.state = ReviewState.APPROVED))) ∧
    ((calculateReviewMetrics pullRequests allReviews repoMap now).reviewStateDistribution.changesRequested =
      (resolvedPairs pullRequests allReviews repoMap).countP
        (fun p => decide (p.2.state = ReviewState.CHANGES_REQUESTED))) ∧
    ((calculateReviewMetrics pullRequests allReviews repoMap now).reviewStateDistribution.commented =
      (resolvedPairs pullRequests allReviews repoMap).countP
        (fun p => decide (p.2.state = ReviewState.COMMENTED))) := by
  refine ⟨rfl, ?_, ?_, ?_, ?_, ?_⟩
  · exact length_filterMap_if _ _ _
  · show ((List.insertionSort byAgeNeed
        (prsNeedingReviewFull now allReviews repoMap pullRequests)).take 20).length = _
    rw [List.length_take, List.length_insertionSort]
  · show (reviewAccumOf now pullRequests allReviews repoMap).approved = _
    rw [reviewAccumOf_eq_pairsFold, pairsFoldFrom_approved]
    simp [initReviewAccum]
  · show (reviewAccumOf now pullRequests allReviews repoMap).changesRequested = _
    rw [reviewAccumOf_eq_pairsFold, pairsFoldFrom_changesRequested]
    simp [initReviewAccum]
  · show (reviewAccumOf now pullRequests allReviews repoMap).commented = _
    rw [reviewAccumOf_eq_pairsFold, pairsFoldFrom_commented]
    simp [initReviewAccum]

/-! ## Claim C5 machinery — canonical reviewer stats and sort stability -/

/-- Spec-side definition (from the specification's words): per-reviewer
stats in first-seen (discovery) order — one entry per distinct login, the
count being the reviewer's total number of review events and the avatar
the one attached to the reviewer's first-seen review. -/
def canonicalStats : List GitHubUser → List ReviewerStat
  | [] => []
  | u :: rest =>
      ⟨u.login, 1 + rest.countP (fun x => decide (x.login = u.login)), u.avatar_url⟩ ::
        canonicalStats (rest.filter (fun x => decide (¬x.login = u.login)))
termination_by l => l.length
decreasing_by
  simp only [List.length_cons]
  exact Nat.lt_succ_of_le (List.length_filter_le _ _)

theorem bumpReviewer_of_not_mem (u : GitHubUser) :
    ∀ stats : List ReviewerStat, (∀ s ∈ stats, s.login ≠ u.login) →
      bumpReviewer stats u = stats ++ [⟨u.login, 1, u.avatar_url⟩]
  | [], _ => rfl
  | s :: rest, h => by
      rw [bumpReviewer, if_neg (h s (List.mem_cons_self _ _)),
        bumpReviewer_of_not_mem u rest (fun x hx => h x (List.mem_cons_of_mem _ hx))]
      rfl

theorem bumpReviewer_of_mem (u : GitHubUser) :
    ∀ stats : List ReviewerStat,
      stats.Pairwise (fun a b => a.login ≠ b.login) →
      (∃ s ∈ stats, s.login = u.login) →
      bumpReviewer stats u = stats.map (fun s =>
        if s.login = u.login then { s with count := s.count + 1 } else s)
  | [], _, hex => by simp at hex
  | s :: rest, hp, hex => by
      rcases List.pairwise_cons.mp hp with ⟨hhd, htl⟩
      by_cases hs : s.login = u.login
      · rw [bumpReviewer, if_pos hs]
        have hrest : rest.map (fun x =>
            if x.login = u.login then { x with count := x.count + 1 } else x) = rest := by
          have : ∀ x ∈ rest, (if x.login = u.login
              then ({ x with count := x.count + 1 } : ReviewerStat) else x) = id x := by
            intro x hx
            rw [if_neg (fun hxe => hhd x hx (hs.trans hxe.symm)), id]
          rw [List.map_congr_left this, List.map_id]
        simp [hs, hrest]
      · rw [bumpReviewer, if_neg hs]
        have hex' : ∃ x ∈ rest, x.login = u.login := by
          rcases hex with ⟨x, hx, hlx⟩
          rcases List.mem_cons.mp hx with rfl | hx'
          · exact absurd hlx hs
          · exact ⟨x, hx', hlx⟩
        rw [bumpReviewer_of_mem u rest htl hex']
        simp [hs]

theorem countP_congr_list {α : Type} {p q : α → Bool} :
    ∀ l : List α, (∀ a ∈ l, p a = q a) → l.countP p = l.countP q
  | [], _ => rfl
  | a :: t, h => by
      simp [List.countP_cons, h a (List.mem_cons_self a t),
        countP_congr_list t (fun x hx => h x (List.mem_cons_of_mem _ hx))]

theorem foldl_bumpReviewer_eq (events : List GitHubUser) :
    ∀ stats : List ReviewerStat, stats.Pairwise (fun a b => a.login ≠ b.login) →
      events.foldl bumpReviewer stats =
        stats.map (fun s => { s with
            count := s.count + events.countP (fun x => decide (x.login = s.login)) }) ++
          canonicalStats (events.filter
            (fun x => !stats.any (fun s => decide (s.login = x.login)))) := by
  induction events with
  | nil =>
      intro stats _
      simp [canonicalStats]
  | cons u rest ih =>
      intro stats hp
      rw [List.foldl_cons]
      by_cases hmem : ∃ s ∈ stats, s.login = u.login
      · rw [bumpReviewer_of_mem u stats hp hmem]
        have hlogin : ∀ s : ReviewerStat,
            ((if s.login = u.login then { s with count := s.count + 1 } else s) :
              ReviewerStat).login = s.login := by
          intro s; by_cases h : s.login = u.login <;> simp [h]
        have hp' : (stats.map (fun s =>
            if s.login = u.login then { s with count := s.count + 1 } else s)).Pairwise
              (fun a b => a.login ≠ b.login) := by
          rw [List.pairwise_map]
          exact hp.imp (fun h => by rwa [hlogin, hlogin])
        rw [ih _ hp']
        congr 1
        · rw [List.map_map]
          refine List.map_congr_left (fun s _ => ?_)
          by_cases h : s.login = u.login
          · have hd : (decide (u.login = s.login)) = true := by simp [h.symm]
            simp only [Function.comp, if_pos h]
            simp [List.countP_cons, hd, ReviewerStat.mk.injEq]
            omega
          · have hd : (decide (u.login = s.login)) = false := by
              simp only [decide_eq_false_iff_not]
              exact fun he => h he.symm
            simp only [Function.comp, if_neg h]
            simp [List.countP_cons, hd]
        · congr 1
          rw [List.filter_cons]
          have hanyu : (stats.any fun s => decide (s.login = u.login)) = true := by
            rcases hmem with ⟨s, hs, hl⟩
            exact List.any_eq_true.mpr ⟨s, hs, by simp [hl]⟩
          rw [if_neg (by simp [hanyu])]
          refine List.filter_congr' (fun x _ => ?_)
          rw [List.any_map]
          refine congrArg (fun b : Bool => !b) (congrArg stats.any ?_)
          funext s
          simp only [Function.comp]
          rw [hlogin]
      · push_neg at hmem
        rw [bumpReviewer_of_not_mem u stats hmem]
        have hp' : (stats ++ [(⟨u.login, 1, u.avatar_url⟩ : ReviewerStat)]).Pairwise
            (fun a b => a.login ≠ b.login) := by
          rw [List.pairwise_append]
          refine ⟨hp, List.pairwise_singleton _ _, ?_⟩
          intro a ha b hb
          rw [List.mem_singleton] at hb
          subst hb
          exact hmem a ha
        rw [ih _ hp']
        rw [List.map_append, List.append_assoc]
        have hanyu : (stats.any fun s => decide (s.login = u.login)) = false := by
          rw [List.any_eq_false]
          intro s hs
          simp [hmem s hs]
        congr 1
        · refine List.map_congr_left (fun s hs => ?_)
          have hd : (decide (u.login = s.login)) = false := by
            simp only [decide_eq_false_iff_not]
            exact fun he => hmem s hs he.symm
          simp [List.countP_cons, hd]
        · rw [List.filter_cons]
          rw [if_pos (by simp [hanyu])]
          rw [canonicalStats]
          rw [List.map_cons, List.map_nil, List.singleton_append]
          congr 1
          · have hcnt : List.countP (fun x => decide (x.login = u.login))
                ((rest.filter (fun x => !stats.any (fun s => decide (s.login = x.login))))) =
                List.countP (fun x => decide (x.login = u.login)) rest := by
              rw [List.countP_filter]
              refine countP_congr_list rest (fun x _ => ?_)
              by_cases hxu : x.login = u.login
              · simp [hxu, hanyu]
              · simp [hxu]
            simp [ReviewerStat.mk.injEq, hcnt]
          · rw [List.filter_filter]
            refine congrArg canonicalStats (List.filter_congr' (fun x _ => ?_))
            rw [List.any_append]
            by_cases hxu : x.login = u.login
            · have h1 : decide (¬x.login = u.login) = false := by simp [hxu]
              have h2 : ([(⟨u.login, 1, u.avatar_url⟩ : ReviewerStat)].any
                  fun s => decide (s.login = x.login)) = true := by simp [hxu]
              rw [h1, h2]
              simp
            · have h1 : decide (¬x.login = u.login) = true := by simp [hxu]
              have h2 : ([(⟨u.login, 1, u.avatar_url⟩ : ReviewerStat)].any
                  fun s => decide (s.login = x.login)) = false := by
                simp only [List.any_cons, List.any_nil, Bool.or_false, decide_eq_false_iff_not]
                exact fun he => hxu he.symm
              rw [h1, h2]
              simp

/-- The accumulated reviewer stats are exactly the canonical first-seen
stats. -/
theorem reviewerStats_eq_canonical (events : List GitHubUser) :
    events.foldl bumpReviewer [] = canonicalStats events := by
  have h := foldl_bumpReviewer_eq events [] List.Pairwise.nil
  simpa using h

theorem filter_orderedInsert_count (a : ReviewerStat) (c : Nat) :
    ∀ l : List ReviewerStat,
      (List.orderedInsert countGe a l).filter (fun s => decide (s.count = c)) =
        if a.count = c then a :: l.filter (fun s => decide (s.count = c))
        else l.filter (fun s => decide (s.count = c))
  | [] => by
      by_cases h : a.count = c <;> simp [List.orderedInsert, h]
  | b :: t => by
      by_cases hr : countGe a b
      · by_cases h : a.count = c <;>
          simp [List.orderedInsert, if_pos hr, List.filter_cons, h]
      · have hlt : a.count < b.count := Nat.lt_of_not_le hr
        by_cases hb : b.count = c
        · have ha : ¬(a.count = c) := by
            intro hac
            exact absurd (hb.trans hac.symm).le hr
          simp [List.orderedInsert, if_neg hr, List.filter_cons, hb, ha,
            filter_orderedInsert_count a c t]
        · by_cases h : a.count = c <;>
            simp [List.orderedInsert, if_neg hr, List.filter_cons, hb, h,
              filter_orderedInsert_count a c t]

/-- Stability of the descending-count sort: entries with any fixed count
keep their relative (first-seen) order. -/
theorem filter_insertionSort_count (c : Nat) :
    ∀ l : List ReviewerStat,
      (List.insertionSort countGe l).filter (fun s => decide (s.count = c)) =
        l.filter (fun s => decide (s.count = c))
  | [] => rfl
  | a :: t => by
      show (List.orderedInsert countGe a (List.insertionSort countGe t)).filter _ = _
      rw [filter_orderedInsert_count, filter_insertionSort_count c t]
      by_cases h : a.count = c <;> simp [List.filter_cons, h]

/-! ## Claim C5 — top-reviewer ranking -/

/-- **C5**: `topReviewers` is ranked by descending review count (a stable
sort, so ties keep first-seen discovery order), truncated to at most 10
entries; the accumulated stats are the canonical first-seen stats (one
entry per login, avatar of the first-seen review, total count), and on the
counts-[5,5,3] example the two tied reviewers appear in first-seen order. -/
theorem C5_top_reviewers_ranking (pullRequests : List GitHubPullRequest)
    (allReviews : List (String × List GitHubReview))
    (repoMap : List (String × String)) (now : Int) :
    ((calculateReviewMetrics pullRequests allReviews repoMap now).topReviewers.length ≤ 10) ∧
    (List.Pairwise (fun a b : TopReviewer => b.reviewCount ≤ a.reviewCount)
      (calculateReviewMetrics pullRequests allReviews repoMap now).topReviewers) ∧
    ((reviewAccumOf now pullRequests allReviews repoMap).reviewerStats =
      canonicalStats ((resolvedPairs pullRequests allReviews repoMap).map (fun p => p.2.user))) ∧
    (∀ (stats : List ReviewerStat) (c : Nat),
      (List.insertionSort countGe stats).filter (fun s => decide (s.count = c)) =
        stats.filter (fun s => decide (s.count = c))) ∧
    ((calculateReviewMetrics pullRequests allReviews repoMap now).topReviewers =
      topReviewersOf (reviewAccumOf now pullRequests allReviews repoMap).reviewerStats) ∧
    (topReviewersOf [⟨"ua", 5, "avA"⟩, ⟨"ub", 5, "avB"⟩, ⟨"uc", 3, "avC"⟩] =
      [⟨"ua", 5, "avA"⟩, ⟨"ub", 5, "avB"⟩, ⟨"uc", 3, "avC"⟩]) := by
  refine ⟨?_, ?_, ?_, fun stats c => filter_insertionSort_count c stats, rfl, by decide⟩
  · show (topReviewersOf (reviewAccumOf now pullRequests allReviews repoMap).reviewerStats).length ≤ 10
    simp only [topReviewersOf, List.length_map, List.length_take]
    exact min_le_left _ _
  · show List.Pairwise (fun a b : TopReviewer => b.reviewCount ≤ a.reviewCount)
      (topReviewersOf (reviewAccumOf now pullRequests allReviews repoMap).reviewerStats)
    have hs : List.Pairwise countGe (List.insertionSort countGe
        (reviewAccumOf now pullRequests allReviews repoMap).reviewerStats) :=
      List.sorted_insertionSort countGe _
    have ht : List.Pairwise countGe ((List.insertionSort countGe
        (reviewAccumOf now pullRequests allReviews repoMap).reviewerStats).take 10) :=
      List.Pairwise.sublist (List.take_sublist _ _) hs
    exact (List.pairwise_map).mpr (ht.imp fun h => h)
  · rw [reviewAccumOf_eq_pairsFold, pairsFoldFrom_reviewerStats]
    exact reviewerStats_eq_canonical _

/-! ## Claim C9 machinery — per-day cells -/

theorem lookupRecord_bumpDaily (d' : Int) (t : ℚ) (d : Int) :
    ∀ daily : List (Int × DailyCell),
      lookupRecord (bumpDaily daily d' t) d =
        if d = d' then
          match lookupRecord daily d with
          | some c => some ⟨c.reviews + 1, c.times ++ [t]⟩
          | none => some ⟨1, [t]⟩
        else lookupRecord daily d
  | [] => by
      by_cases h : d = d'
      · simp [bumpDaily, lookupRecord_cons, lookupRecord_nil, h]
      · have h' : ¬(d' = d) := fun he => h he.symm
        simp [bumpDaily, lookupRecord_cons, lookupRecord_nil, h, h']
  | (d₀, c₀) :: rest => by
      by_cases h0 : d₀ = d'
      · by_cases h : d = d'
        · have h2 : d₀ = d := h0.trans h.symm
          simp [bumpDaily, h0, lookupRecord_cons, h2, h]
        · have h2 : ¬(d₀ = d) := fun he => h (he.symm.trans h0)
          have h3 : ¬(d' = d) := fun he => h he.symm
          simp [bumpDaily, h0, lookupRecord_cons, h2, h, h3]
      · by_cases h1 : d₀ = d
        · have h2 : ¬(d = d') := fun he => h0 (h1.trans he)
          simp [bumpDaily, h0, lookupRecord_cons, h1, h2]
        · simp [bumpDaily, h0, lookupRecord_cons, h1,
            lookupRecord_bumpDaily d' t d rest]

theorem pairsFoldFrom_dailyTimes_mono (now : Int) :
    ∀ (ps : List (GitHubPullRequest × GitHubReview)) (acc : ReviewAccum)
      (d : Int) (c : DailyCell),
      lookupRecord acc.dailyReviews d = some c →
      ∃ c', lookupRecord (pairsFoldFrom now acc ps).dailyReviews d = some c' ∧
        ∀ t ∈ c.times, t ∈ c'.times
  | [], acc, d, c, h => ⟨c, h, fun _ ht => ht⟩
  | p :: rest, acc, d, c, h => by
      have hstep : (processOneReview now p.1 acc p.2).dailyReviews =
          bumpDaily acc.dailyReviews (dayOf p.2.submitted_at) (hoursToReview p.1 p.2) := rfl
      by_cases hd : d = dayOf p.2.submitted_at
      · have h' : lookupRecord (processOneReview now p.1 acc p.2).dailyReviews d =
            some ⟨c.reviews + 1, c.times ++ [hoursToReview p.1 p.2]⟩ := by
          rw [hstep, lookupRecord_bumpDaily, if_pos hd, h]
        rcases pairsFoldFrom_dailyTimes_mono now rest (processOneReview now p.1 acc p.2)
            d _ h' with ⟨c', hc', hsub⟩
        exact ⟨c', hc', fun t ht => hsub t (List.mem_append_left _ ht)⟩
      · have h' : lookupRecord (processOneReview now p.1 acc p.2).dailyReviews d = some c := by
          rw [hstep, lookupRecord_bumpDaily, if_neg hd]
          exact h
        exact pairsFoldFrom_dailyTimes_mono now rest _ d c h'

theorem pairsFoldFrom_dailyTimes_of_mem (now : Int) :
    ∀ (ps : List (GitHubPullRequest × GitHubReview)) (acc : ReviewAccum)
      (pr : GitHubPullRequest) (r : GitHubReview),
      (pr, r) ∈ ps →
      ∃ c : DailyCell,
        lookupRecord (pairsFoldFrom now acc ps).dailyReviews (dayOf r.submitted_at) = some c ∧
          hoursToReview pr r ∈ c.times
  | [], _, _, _, h => absurd h (List.not_mem_nil _)
  | p :: rest, acc, pr, r, h => by
      rcases List.mem_cons.mp h with heq | hrest
      · subst heq
        have hstep : (processOneReview now pr acc r).dailyReviews =
            bumpDaily acc.dailyReviews (dayOf r.submitted_at) (hoursToReview pr r) := rfl
        have h' : ∃ c0 : DailyCell,
            lookupRecord (processOneReview now pr acc r).dailyReviews (dayOf r.submitted_at) =
              some c0 ∧ hoursToReview pr r ∈ c0.times := by
          rw [hstep, lookupRecord_bumpDaily, if_pos rfl]
          cases hl : lookupRecord acc.dailyReviews (dayOf r.submitted_at) with
          | some c => exact ⟨_, rfl, List.mem_append_right _ (List.mem_singleton_self _)⟩
          | none => exact ⟨_, rfl, List.mem_singleton_self _⟩
        rcases h' with ⟨c0, hc0, ht0⟩
        rcases pairsFoldFrom_dailyTimes_mono now rest _ _ _ hc0 with ⟨c', hc', hsub⟩
        exact ⟨c', hc', hsub _ ht0⟩
      · exact pairsFoldFrom_dailyTimes_of_mem now rest _ pr r hrest

/-! ## Claim C9 — negative review latencies are preserved unclamped -/

/-- **C9**: for every resolved review submitted before its pull request's
creation time, the computed latency in hours is negative and is pushed
as-is — not clamped to zero — into the raw `reviewTimes` list feeding the
global average and into the day cell feeding the per-day average series;
the published averages are plain arithmetic means of those raw values. -/
theorem C9_negative_latency_preserved (pullRequests : List GitHubPullRequest)
    (allReviews : List (String × List GitHubReview))
    (repoMap : List (String × String)) (now : Int)
    (pr : GitHubPullRequest) (r : GitHubReview)
    (hmem : (pr, r) ∈ resolvedPairs pullRequests allReviews repoMap)
    (hneg : r.submitted_at < pr.created_at) :
    (hoursToReview pr r < 0) ∧
    (hoursToReview pr r ∈ (reviewAccumOf now pullRequests allReviews repoMap).reviewTimes) ∧
    (∃ c : DailyCell,
      lookupRecord (reviewAccumOf now pullRequests allReviews repoMap).dailyReviews
        (dayOf r.submitted_at) = some c ∧ hoursToReview pr r ∈ c.times) ∧
    ((calculateReviewMetrics pullRequests allReviews repoMap now).averageReviewTimeHours =
      round2 (if 0 < (reviewAccumOf now pullRequests allReviews repoMap).reviewTimes.length
        then (reviewAccumOf now pullRequests allReviews repoMap).reviewTimes.sum /
          ((reviewAccumOf now pullRequests allReviews repoMap).reviewTimes.length : ℚ)
        else 0)) ∧
    (∀ point ∈ (calculateReviewMetrics pullRequests allReviews repoMap now).dailyReviewData,
      point.avgTimeHours =
        (if 0 < ((lookupRecord (reviewAccumOf now pullRequests allReviews repoMap).dailyReviews
              point.date).getD ⟨0, []⟩).times.length
          then ((lookupRecord (reviewAccumOf now pullRequests allReviews repoMap).dailyReviews
              point.date).getD ⟨0, []⟩).times.sum /
            (((lookupRecord (reviewAccumOf now pullRequests allReviews repoMap).dailyReviews
              point.date).getD ⟨0, []⟩).times.length : ℚ)
          else 0)) := by
  refine ⟨?_, ?_, ?_, rfl, ?_⟩
  · have hsub : ((r.submitted_at - pr.created_at : Int) : ℚ) < 0 := by
      rw [Int.cast_lt_zero]
      omega
    exact div_neg_of_neg_of_pos hsub (by norm_num)
  · rw [reviewAccumOf_eq_pairsFold, pairsFoldFrom_reviewTimes]
    refine List.mem_append_right _ ?_
    exact List.mem_map_of_mem _ hmem
  · rw [reviewAccumOf_eq_pairsFold]
    exact pairsFoldFrom_dailyTimes_of_mem now _ _ pr r hmem
  · intro point hpt
    have : point ∈ dailyReviewDataOf now
        (reviewAccumOf now pullRequests allReviews repoMap).dailyReviews := hpt
    rcases List.mem_map.mp this with ⟨k, _, rfl⟩
    rfl

/-- A PR created at hour 2 whose only review was submitted at hour 1. -/
def w9Pr : GitHubPullRequest := ⟨3, "late", wUserA, 7200000, 7200000, none, "open", "u3", false⟩

def w9Review : GitHubReview := ⟨21, wUserB, ReviewState.COMMENTED, 3600000⟩

def w9RepoMap : List (String × String) := [("o/C#3", "C")]

def w9Reviews : List (String × List GitHubReview) := [("o/C#3", [w9Review])]

/-- Witness for C9: a concrete resolved review submitted one hour before
its PR's creation has negative latency and that raw value sits in the
global `reviewTimes` list. -/
theorem C9_negative_latency_preserved_witness :
    hoursToReview w9Pr w9Review < 0 ∧
      hoursToReview w9Pr w9Review ∈
        (reviewAccumOf 7200000 [w9Pr] w9Reviews w9RepoMap).reviewTimes :=
  ⟨(C9_negative_latency_preserved [w9Pr] w9Reviews w9RepoMap 7200000 w9Pr w9Review
      (by decide) (by decide)).1,
   (C9_negative_latency_preserved [w9Pr] w9Reviews w9RepoMap 7200000 w9Pr w9Review
      (by decide) (by decide)).2.1⟩

/-- What a successful scan guarantees: the found key's parsed number is
the item's number and its map value is truthy — nothing relates the key to
the item's repository. -/
theorem findWorklistKey_some {repoMap : List (String × String)}
    {itemNumber : Int} {key : String}
    (hfind : findWorklistKey repoMap itemNumber = some key) :
    keyNumberOf key = some itemNumber ∧ recordTruthy repoMap key = true := by
  have hp := List.find?_some hfind
  unfold scanKeyPred at hp
  cases hk : keyNumberOf key with
  | none => rw [hk] at hp; simp at hp
  | some n =>
      rw [hk] at hp
      rw [Bool.and_eq_true, decide_eq_true_eq] at hp
      exact ⟨congrArg some hp.1, hp.2⟩

/-! ## Claim C1 — repository resolution of worklist items

The scan of lines 440-446 matches a map key by number only (plus value
truthiness); it never consults the item's own repository.  The concrete
run below shows two processed repositories `A` and `B` that each contain
an open pull request number 7: the repository map itself still knows that
key `o/B#7` belongs to `B`, yet the published needing-review entry for
`B`'s pull request reports repository `A`, because the scan stops at the
first key whose number matches. -/

def cxUser : GitHubUser := ⟨"carol", "c.png", some "User"⟩

def cxPrA7 : GitHubPullRequest := ⟨7, "a-pr", cxUser, 0, 10, none, "open", "uA7", false⟩

def cxPrB7 : GitHubPullRequest := ⟨7, "b-pr", cxUser, 0, 10, none, "open", "uB7", false⟩

def cxRepoA : RepoData := ⟨"o", "A", [cxPrA7], [], fun _ => Except.ok []⟩

def cxRepoB : RepoData := ⟨"o", "B", [cxPrB7], [], fun _ => Except.ok []⟩

def cxRepos : List RepoData := [cxRepoA, cxRepoB]

/-- Counterexample to C1 as stated: the lookup does **not** match the
item's repository context.  In the two-repository run above, the pull
request fetched from repository `B` (distinguished by its title `b-pr`)
is published in the needing-review worklist with `repository = "A"`,
although the composite-key map itself records its own key `o/B#7 ↦ B`. -/
theorem C1_counterexample :
    (lookupRecord (collectData cxRepos).repoMap "o/B#7" = some "B") ∧
    (cxPrB7 ∈ (collectData cxRepos).allPullRequests) ∧
    (resolvedRepository (collectData cxRepos).repoMap cxPrB7.number = "A") ∧
    (((prsNeedingReviewFull 1000 (collectData cxRepos).allReviews
        (collectData cxRepos).repoMap (collectData cxRepos).allPullRequests).filter
          (fun e => e.title == "b-pr")).map (fun e => e.repository) = ["A"]) := by
  refine ⟨by decide, by decide, by decide, by decide⟩

/-- **C1** (amended): the worklist lookup scans the composite-key map for
the first key whose parsed number segment equals the item's number and
whose mapped value is truthy, regardless of the key's repository; when no
key is found the item is still published, with repository `"unknown"`, and
an `allReviews` entry whose owning PR cannot be resolved contributes to no
review counter. -/
theorem C1_amended_lookup_semantics :
    (∀ (repoMap : List (String × String)) (itemNumber : Int) (key : String),
      findWorklistKey repoMap itemNumber = some key →
        keyNumberOf key = some itemNumber ∧ recordTruthy repoMap key = true) ∧
    (∀ (now : Int) (allReviews : List (String × List GitHubReview))
        (repoMap : List (String × String)) (pullRequests : List GitHubPullRequest)
        (pr : GitHubPullRequest),
      pr ∈ pullRequests → isWorklistCandidate pr = true →
      findWorklistKey repoMap pr.number = none →
        prReviewsFor allReviews repoMap pr.number = [] ∧
        needEntryOf now repoMap pr ∈
          prsNeedingReviewFull now allReviews repoMap pullRequests ∧
        (needEntryOf now repoMap pr).repository = "unknown") ∧
    (∀ (now : Int) (repoMap : List (String × String)) (issue : GitHubIssue),
      findWorklistKey repoMap issue.number = none →
        (issueEntryOf now repoMap issue).repository = "unknown") ∧
    (∀ (now : Int) (pullRequests : List GitHubPullRequest)
        (repoMap : List (String × String)) (acc : ReviewAccum)
        (key : String) (reviews : List GitHubReview),
      resolveEntryPR pullRequests repoMap key = none →
        processEntry now pullRequests repoMap acc (key, reviews) = acc) := by
  refine ⟨?_, ?_, ?_, ?_⟩
  · intro repoMap itemNumber key hfind
    exact findWorklistKey_some hfind
  · intro now allReviews repoMap pullRequests pr hpr hcand hnone
    have hrev : prReviewsFor allReviews repoMap pr.number = [] := by
      unfold prReviewsFor
      rw [hnone]
    refine ⟨hrev, ?_, ?_⟩
    · exact mem_prsNeedingReviewFull.mpr ⟨pr, hpr, hcand, by rw [hrev]; rfl, rfl⟩
    · simp [needEntryOf, resolvedRepository, hnone]
  · intro now repoMap issue hnone
    simp [issueEntryOf, resolvedRepository, hnone]
  · intro now pullRequests repoMap acc key reviews hres
    simp [processEntry, hres]

/-- An open pull request number 9, used with an empty repository map. -/
def w1Pr9 : GitHubPullRequest := ⟨9, "nine", wUserA, 0, 10, none, "open", "u9", false⟩

/-- Witness for the amended C1: with an empty composite-key map, the scan
finds nothing, the PR is treated as having zero reviews, and its published
entry reports repository `"unknown"`. -/
theorem C1_amended_lookup_semantics_witness :
    prReviewsFor [] ([] : List (String × String)) w1Pr9.number = [] ∧
    needEntryOf 0 [] w1Pr9 ∈ prsNeedingReviewFull 0 [] [] [w1Pr9] ∧
    (needEntryOf 0 [] w1Pr9).repository = "unknown" :=
  C1_amended_lookup_semantics.2.1 0 [] [] [w1Pr9] w1Pr9
    (List.mem_singleton_self _) (by decide) (by decide)

/-! ## Claim C10 — repository and review-fetch truncation

The orchestrator processes only `repositories.slice(0, 15)` and fetches
reviews only for `pullRequests.slice(0, 30)` per repository, so any later
pull request has no entry keyed to it in `allReviews`.  But the aggregator
looks its reviews up by a number-only key scan, so when another processed
repository contributes a reviews-map entry with the same PR number, the
later PR is **not** treated as having zero reviews: the concrete run below
has repository `A`'s 31st pull request (number 5, open, never fetched for
reviews) classified as *not* needing review because repository `B`'s
reviewed PR number 5 is found by the scan. -/

def cProcUser : GitHubUser := ⟨"dan", "d.png", some "User"⟩

/-- Thirty closed pull requests numbered 100..129. -/
def c10ClosedPRs : List GitHubPullRequest :=
  (List.range 30).map (fun i =>
    ⟨(100 + (i : Int)), "c", cProcUser, 0, 10, none, "closed", "uc", false⟩)

/-- Repository `A`'s 31st pull request: open, number 5. -/
def c10PrA5 : GitHubPullRequest := ⟨5, "a-31st", cProcUser, 0, 10, none, "open", "uA5", false⟩

/-- Repository `B`'s only pull request: open, number 5, with an approval. -/
def c10PrB5 : GitHubPullRequest := ⟨5, "b-first", cProcUser, 0, 10, none, "open", "uB5", false⟩

def c10ApprovedReview : GitHubReview := ⟨31, wUserB, ReviewState.APPROVED, 50⟩

def c10RepoB : RepoData :=
  ⟨"o", "B", [c10PrB5], [],
    fun n => if n = 5 then Except.ok [c10ApprovedReview] else Except.ok []⟩

def c10RepoA : RepoData :=
  ⟨"o", "A", c10ClosedPRs ++ [c10PrA5], [], fun _ => Except.ok []⟩

def c10Repos : List RepoData := [c10RepoB, c10RepoA]

/-- Counterexample to C10 as stated: repository `A`'s 31st pull request is
open, non-merged, non-draft and has no reviews-map entry keyed to it
(`o/A#5` is absent), yet the aggregator attributes repository `B`'s
approved review to it through the number-only scan, so it is **not**
classified as needing review — the needing-review worklist of this run is
empty. -/
theorem C10_counterexample :
    (c10PrA5 ∈ (collectData c10Repos).allPullRequests) ∧
    (c10PrA5.state = "open" ∧ c10PrA5.merged_at = none ∧ c10PrA5.draft = false) ∧
    (c10PrA5 ∈ c10RepoA.pullRequests.drop 30) ∧
    (lookupRecord (collectData c10Repos).allReviews "o/A#5" = none) ∧
    (prReviewsFor (collectData c10Repos).allReviews (collectData c10Repos).repoMap
      c10PrA5.number = [c10ApprovedReview]) ∧
    ((prsNeedingReviewFull 1000 (collectData c10Repos).allReviews
      (collectData c10Repos).repoMap (collectData c10Repos).allPullRequests) = []) := by
  refine ⟨by decide, by decide, by decide, by decide, by decide, by decide⟩

theorem lookupRecord_recordSet {κ β : Type} [DecidableEq κ] (k k' : κ) (v : β) :
    ∀ m : List (κ × β),
      lookupRecord (recordSet m k v) k' = if k' = k then some v else lookupRecord m k'
  | [] => by
      by_cases h : k' = k
      · simp [recordSet, lookupRecord_cons, h]
      · have h' : ¬(k = k') := fun he => h he.symm
        simp [recordSet, lookupRecord_cons, lookupRecord_nil, h, h']
  | (k₀, v₀) :: rest => by
      by_cases h0 : k₀ = k
      · by_cases h : k' = k
        · subst h
          simp [recordSet, h0, lookupRecord_cons]
        · have h2 : ¬(k = k') := fun he => h he.symm
          have h3 : ¬(k₀ = k') := fun he => h (he.symm.trans h0)
          simp [recordSet, h0, lookupRecord_cons, h, h2, h3]
      · by_cases h1 : k₀ = k'
        · have h2 : ¬(k' = k) := fun he => h0 (h1.trans he)
          simp [recordSet, h0, lookupRecord_cons, h1, h2]
        · simp [recordSet, h0, lookupRecord_cons, h1,
            lookupRecord_recordSet k k' v rest]

/-- Keys of the per-repository review-fetch fold come from the folded PR
list. -/
theorem reviewsFold_key_provenance (repo : RepoData) (k : String) :
    ∀ (l : List GitHubPullRequest) (ar : List (String × List GitHubReview)),
      lookupRecord (l.foldl (fun ar pr =>
          let reviews := getReviews (repo.reviewsFetch pr.number)
          if 0 < reviews.length then
            recordSet ar (compositeKey repo.owner repo.name pr.number) reviews
          else ar) ar) k ≠ none →
        lookupRecord ar k ≠ none ∨
          ∃ p ∈ l, k = compositeKey repo.owner repo.name p.number
  | [], ar, h => Or.inl h
  | pr :: rest, ar, h => by
      rw [List.foldl_cons] at h
      rcases reviewsFold_key_provenance repo k rest _ h with h' | ⟨p, hp, hk⟩
      · by_cases hc :
          0 < (getReviews (repo.reviewsFetch pr.number)).length
        · rw [if_pos hc, lookupRecord_recordSet] at h'
          by_cases hk : k = compositeKey repo.owner repo.name pr.number
          · exact Or.inr ⟨pr, List.mem_cons_self _ _, hk⟩
          · rw [if_neg hk] at h'
            exact Or.inl h'
        · rw [if_neg hc] at h'
          exact Or.inl h'
      · exact Or.inr ⟨p, List.mem_cons_of_mem _ hp, hk⟩

/-- Every key of the accumulated `allReviews` map was generated from one
of the first 30 pull requests of a processed repository. -/
theorem allReviews_key_provenance (k : String) :
    ∀ (repos : List RepoData) (acc : CollectedData),
      lookupRecord (repos.foldl collectRepo acc).allReviews k ≠ none →
        lookupRecord acc.allReviews k ≠ none ∨
          ∃ repo ∈ repos, ∃ p ∈ repo.pullRequests.take 30,
            k = compositeKey repo.owner repo.name p.number
  | [], _, h => Or.inl h
  | repo :: rest, acc, h => by
      rw [List.foldl_cons] at h
      rcases allReviews_key_provenance k rest _ h with h' | ⟨r', hr', p, hp, hk⟩
      · have h'' : lookupRecord ((repo.pullRequests.take 30).foldl (fun ar pr =>
            let reviews := getReviews (repo.reviewsFetch pr.number)
            if 0 < reviews.length then
              recordSet ar (compositeKey repo.owner repo.name pr.number) reviews
            else ar) acc.allReviews) k ≠ none := h'
        rcases reviewsFold_key_provenance repo k _ _ h'' with h3 | ⟨p, hp, hk⟩
        · exact Or.inl h3
        · exact Or.inr ⟨repo, List.mem_cons_self _ _, p, hp, hk⟩
      · exact Or.inr ⟨r', List.mem_cons_of_mem _ hr', p, hp, hk⟩

/-- The accumulated pull-request list is the concatenation of the
processed repositories' lists. -/
theorem allPullRequests_collect (repos : List RepoData) :
    ∀ acc : CollectedData,
      (repos.foldl collectRepo acc).allPullRequests =
        acc.allPullRequests ++ (repos.map (fun r => r.pullRequests)).flatten := by
  induction repos with
  | nil => intro acc; simp
  | cons repo rest ih =>
      intro acc
      rw [List.foldl_cons, ih]
      simp [collectRepo, List.append_assoc]

/-- Only the first 15 repositories are consumed. -/
theorem collectData_take_15 (repos : List RepoData) :
    collectData repos = collectData (repos.take 15) := by
  unfold collectData
  rw [List.take_take]
  norm_num

/-- **C10** (amended): the orchestrator processes only the first 15
repositories and requests reviews only for the first 30 pull requests of
each; every other pull request gets no reviews-map entry keyed to it.
Provided additionally that no reviews-map entry's key parses to the PR's
number (in particular, no other processed repository contributed a
reviewed PR with the same number), the aggregator treats the PR as having
zero reviews and, when open, non-merged and non-draft, classifies it as
needing review. -/
theorem C10_truncation_semantics (repos : List RepoData) (now : Int)
    (repo : RepoData) (pr : GitHubPullRequest)
    (hrepo : repo ∈ repos.take 15) (hpr : pr ∈ repo.pullRequests)
    (hkey : ∀ r' ∈ repos.take 15, ∀ p' ∈ r'.pullRequests.take 30,
      compositeKey r'.owner r'.name p'.number ≠ compositeKey repo.owner repo.name pr.number)
    (hnum : ∀ kv ∈ (collectData repos).allReviews, keyNumberOf kv.1 ≠ some pr.number)
    (hcand : isWorklistCandidate pr = true) :
    (collectData repos = collectData (repos.take 15)) ∧
    (lookupRecord (collectData repos).allReviews
      (compositeKey repo.owner repo.name pr.number) = none) ∧
    (prReviewsFor (collectData repos).allReviews (collectData repos).repoMap pr.number = []) ∧
    (pr ∈ (collectData repos).allPullRequests) ∧
    (needEntryOf now (collectData repos).repoMap pr ∈
      prsNeedingReviewFull now (collectData repos).allReviews (collectData repos).repoMap
        (collectData repos).allPullRequests) := by
  have hmem : pr ∈ (collectData repos).allPullRequests := by
    unfold collectData
    rw [allPullRequests_collect]
    refine List.mem_append_right _ ?_
    rw [List.mem_join]
    exact ⟨repo.pullRequests, List.mem_map_of_mem _ hrepo, hpr⟩
  have hown : lookupRecord (collectData repos).allReviews
      (compositeKey repo.owner repo.name pr.number) = none := by
    by_contra hne
    have h0 := allReviews_key_provenance
      (compositeKey repo.owner repo.name pr.number) (repos.take 15) ⟨[], [], []⟩ hne
    rcases h0 with h0 | ⟨r', hr', p', hp', hk⟩
    · exact h0 rfl
    · exact hkey r' hr' p' hp' hk.symm
  have hrev : prReviewsFor (collectData repos).allReviews
      (collectData repos).repoMap pr.number = [] := by
    unfold prReviewsFor
    cases hscan : findWorklistKey (collectData repos).repoMap pr.number with
    | none => rfl
    | some key =>
        rcases findWorklistKey_some hscan with ⟨hkn, _⟩
        have hnone : lookupRecord (collectData repos).allReviews key = none := by
          cases hl : lookupRecord (collectData repos).allReviews key with
          | none => rfl
          | some v => exact absurd hkn (hnum (key, v) (lookupRecord_isSome_mem hl))
        show (lookupRecord (collectData repos).allReviews key).getD [] = []
        rw [hnone]
        rfl
  refine ⟨collectData_take_15 repos, hown, hrev, hmem, ?_⟩
  exact mem_prsNeedingReviewFull.mpr ⟨pr, hmem, hcand, by rw [hrev]; rfl, rfl⟩

/-- Repository `D`'s 31st pull request: open, number 5, never fetched for
reviews. -/
def w10Pr5 : GitHubPullRequest := ⟨5, "d-open", cProcUser, 0, 10, none, "open", "uD5", false⟩

def w10Repo : RepoData := ⟨"o", "D", c10ClosedPRs ++ [w10Pr5], [], fun _ => Except.ok []⟩

/-- Witness for the amended C10: in a single-repository run with 31 pull
requests, the 31st (open, number 5) has no reviews-map entry, is treated
as having zero reviews, and lands in the needing-review classification. -/
theorem C10_truncation_semantics_witness :
    (collectData [w10Repo] = collectData ([w10Repo].take 15)) ∧
    (lookupRecord (collectData [w10Repo]).allReviews
      (compositeKey w10Repo.owner w10Repo.name w10Pr5.number) = none) ∧
    (prReviewsFor (collectData [w10Repo]).allReviews (collectData [w10Repo]).repoMap
      w10Pr5.number = []) ∧
    (w10Pr5 ∈ (collectData [w10Repo]).allPullRequests) ∧
    (needEntryOf 0 (collectData [w10Repo]).repoMap w10Pr5 ∈
      prsNeedingReviewFull 0 (collectData [w10Repo]).allReviews
        (collectData [w10Repo]).repoMap (collectData [w10Repo]).allPullRequests) :=
  C10_truncation_semantics [w10Repo] 0 w10Repo w10Pr5
    (List.mem_singleton_self _)
    (List.mem_append_right _ (List.mem_singleton_self _))
    (by
      intro r' hr' p' hp'
      have hr'' : r' = w10Repo := List.mem_singleton.mp hr'
      subst hr''
      revert hp'
      revert p'
      decide)
    (by decide)
    (by decide)
